import Mathlib

/-!
Verification of the cache-array-sync reliable-propagation engine.

A shallow embedding, in Lean 4, of the core components of the
file-synchronization engine: the bounded priority queue
(`src/priority_sync_queue.hpp`), the append-only transaction log
(`src/transaction_log.hpp`), the file verifier (`src/file_verification.hpp`)
and the orchestrating sync manager (`src/robust_sync_manager.hpp`).

Modelling conventions:
* The C++ code runs worker threads over mutex-protected state; every public
  operation holds the component's single mutex for its whole body, so each
  operation is atomic.  The embedding models each operation as a pure state
  transformer, and a concurrent history as a sequence of such atomic steps.
* `std::priority_queue` is the GNU libstdc++ binary heap over a
  `std::vector`; `push` is `push_back` + `__push_heap` and `pop` is
  `__pop_heap` (hole-to-leaf descent + sift-up) + `pop_back`.  Those two
  algorithms are embedded verbatim over `List`.
* The filesystem is abstracted as a finite map from absolute paths to file
  data (byte content and mtime), plus a set of directory paths.
* External libraries (jsoncpp, OpenSSL MD5/SHA-256) are not repository code;
  hash functions are taken as parameters, and the JSON line codec is modelled
  by an executable writer/parser pair for the record format the code emits
  (one object per line, no indentation).
* Wall-clock reads (`system_clock::now()`) are passed in as explicit `now`
  arguments; durations are in milliseconds.
-/

/-- Model of `enum class SyncPriority` from `priority_sync_queue.hpp`. -/
inductive SyncPriority where
  | CRITICAL
  | HIGH
  | NORMAL
  | LOW
  | BACKGROUND
deriving DecidableEq, Repr

/-- The underlying integer value of a `SyncPriority` enumerator
(`CRITICAL = 0` … `BACKGROUND = 4`); `operator<` compares these. -/
def SyncPriority.ord : SyncPriority → Nat
  | .CRITICAL => 0
  | .HIGH => 1
  | .NORMAL => 2
  | .LOW => 3
  | .BACKGROUND => 4

/-- Model of `class SyncTask` from `priority_sync_queue.hpp`.  `taskId` models the
value drawn from `generateTaskId`'s monotonically increasing counter (the
timestamp half of the id plays no role in any comparison). -/
structure SyncTask where
  path : String
  operation : String
  priority : SyncPriority
  retryCount : Nat
  status : String
  taskId : Nat
deriving DecidableEq, Repr

/-- Comparison `SyncTask::operator<`: `return m_priority > other.m_priority;`
(reversed so that `std::priority_queue` surfaces the lowest ordinal). -/
def SyncTask.lt (a b : SyncTask) : Bool :=
  b.priority.ord < a.priority.ord

/-- The `SyncTask` used as the out-of-range default of `getT` (never read
by the algorithms on valid indices). -/
def defaultTask : SyncTask :=
  ⟨"", "", .NORMAL, 0, "", 0⟩

/-- Array indexing `v[i]` of the heap's backing `std::vector`. -/
def getT (l : List SyncTask) (i : Nat) : SyncTask :=
  l.getD i defaultTask

namespace PrioritySyncQueue

/-- Model of libstdc++ `__push_heap(first, holeIndex, topIndex, value)` with
`topIndex = top`: repeatedly move the parent down while it compares less
than `value`, then place `value` in the hole. -/
def pushHeapAux (l : List SyncTask) (hole top : Nat) (value : SyncTask) : List SyncTask :=
  if h : top < hole ∧ SyncTask.lt (getT l ((hole - 1) / 2)) value then
    pushHeapAux (l.set hole (getT l ((hole - 1) / 2))) ((hole - 1) / 2) top value
  else
    l.set hole value
termination_by hole
decreasing_by exact Nat.lt_of_le_of_lt (Nat.div_le_self _ 2) (Nat.pred_lt (Nat.not_eq_zero_of_lt h.1))

/-- Child selection inside libstdc++ `__adjust_heap`: from the right child
`sc1 = 2 * (hole + 1)`, step to the left sibling when the right child
compares less. -/
def chooseChild (l : List SyncTask) (sc1 : Nat) : Nat :=
  if SyncTask.lt (getT l sc1) (getT l (sc1 - 1)) then sc1 - 1 else sc1

/-- The descent loop of libstdc++ `__adjust_heap`: while the hole has a
right child, promote the greater child into the hole.  Returns the array,
the final `holeIndex` and the final `secondChild` (kept equal by the loop). -/
def adjustLoop (l : List SyncTask) (hole sc len : Nat) : List SyncTask × Nat × Nat :=
  if h : sc < (len - 1) / 2 then
    let sc2 := chooseChild l (2 * (sc + 1))
    adjustLoop (l.set hole (getT l sc2)) sc2 sc2 len
  else
    (l, hole, sc)
termination_by len - sc
decreasing_by
  have h1 : sc < len := Nat.lt_of_lt_of_le h (Nat.le_trans (Nat.div_le_self _ 2) (Nat.sub_le _ _))
  have h2 : sc < chooseChild l (2 * (sc + 1)) := by
    unfold chooseChild
    split <;> omega
  omega

/-- Model of libstdc++ `__adjust_heap(first, holeIndex, len, value)`: descend the
hole to the bottom (with the special case of a final single left child),
then sift `value` up from there towards `holeIndex`. -/
def adjustHeap (l : List SyncTask) (holeIndex : Nat) (value : SyncTask) : List SyncTask :=
  let len := l.length
  let r := adjustLoop l holeIndex holeIndex len
  let r2 : List SyncTask × Nat :=
    if len % 2 = 0 ∧ r.2.2 = (len - 2) / 2 then
      (r.1.set r.2.1 (getT r.1 (2 * (r.2.2 + 1) - 1)), 2 * (r.2.2 + 1) - 1)
    else
      (r.1, r.2.1)
  pushHeapAux r2.1 r2.2 holeIndex value

/-- Operation `std::priority_queue::push`: `c.push_back(x); std::push_heap(...)`. -/
def heapPush (l : List SyncTask) (t : SyncTask) : List SyncTask :=
  pushHeapAux (l ++ [t]) l.length 0 t

/-- Operations `top()` followed by `pop()` (`std::pop_heap` then `c.pop_back()`):
returns the root and the remaining heap. -/
def heapPop (l : List SyncTask) : Option SyncTask × List SyncTask :=
  match l with
  | [] => (none, [])
  | [t] => (some t, [])
  | _ =>
    (some (getT l 0), adjustHeap (l.take (l.length - 1)) 0 (getT l (l.length - 1)))

/-- State of a `PrioritySyncQueue`: the heap's backing vector, `m_maxSize`
and `m_shutdown` (the mutex and condition variables have no pure content). -/
structure State where
  tasks : List SyncTask
  maxSize : Nat
  shutdownFlag : Bool
deriving DecidableEq, Repr

/-- Operation `PrioritySyncQueue::enqueue` as one atomic step.  In a sequential
history the `m_notFull` wait cannot be satisfied by a concurrent consumer,
so a full queue times out: `hasRoom = (size < maxSize ∨ shutdown)`, then
`if (!hasRoom || m_shutdown) return false`. -/
def enqueue (s : State) (t : SyncTask) : Bool × State :=
  if s.shutdownFlag then (false, s)
  else if s.tasks.length < s.maxSize then (true, { s with tasks := heapPush s.tasks t })
  else (false, s)

/-- Operation `PrioritySyncQueue::dequeue` as one atomic step:
`hasTask = (¬empty ∨ shutdown)`; `if (!hasTask || (empty && shutdown))`
return `nullopt`, else `top()`/`pop()`. -/
def dequeue (s : State) : Option SyncTask × State :=
  if s.tasks.isEmpty then (none, s)
  else
    ((heapPop s.tasks).1, { s with tasks := (heapPop s.tasks).2 })

/-- Queue states reachable from a fresh queue by any interleaving of
`enqueue` and `dequeue` calls, with no `shutdown()` call. -/
inductive Reachable : State → Prop where
  | init (cap : Nat) : Reachable ⟨[], cap, false⟩
  | enq {s : State} (t : SyncTask) : Reachable s → Reachable (enqueue s t).2
  | deq {s : State} : Reachable s → Reachable (dequeue s).2

end PrioritySyncQueue

namespace TransactionLog

/-- Model of `TransactionLog::OperationType`. -/
inductive OperationType where
  | COPY
  | MOVE
  | DELETE
  | METADATA_UPDATE
deriving DecidableEq, Repr

/-- Integer value written to the `operation` field by `toJson`. -/
def OperationType.toNat : OperationType → Nat
  | .COPY => 0
  | .MOVE => 1
  | .DELETE => 2
  | .METADATA_UPDATE => 3

/-- Inverse used by `fromJson`'s `static_cast<OperationType>` on the values
the log itself writes. -/
def OperationType.ofCode : Nat → Option OperationType
  | 0 => some .COPY
  | 1 => some .MOVE
  | 2 => some .DELETE
  | 3 => some .METADATA_UPDATE
  | _ => none

/-- Model of `TransactionLog::TransactionStatus`. -/
inductive TransactionStatus where
  | PENDING
  | IN_PROGRESS
  | COMPLETED
  | FAILED
  | ROLLED_BACK
deriving DecidableEq, Repr

/-- Integer value written to the `status` field by `toJson`. -/
def TransactionStatus.toNat : TransactionStatus → Nat
  | .PENDING => 0
  | .IN_PROGRESS => 1
  | .COMPLETED => 2
  | .FAILED => 3
  | .ROLLED_BACK => 4

/-- Inverse used by `fromJson`'s `static_cast<TransactionStatus>` on the
values the log itself writes. -/
def TransactionStatus.ofCode : Nat → Option TransactionStatus
  | 0 => some .PENDING
  | 1 => some .IN_PROGRESS
  | 2 => some .COMPLETED
  | 3 => some .FAILED
  | 4 => some .ROLLED_BACK
  | _ => none

/-- Model of `TransactionLog::TransactionRecord`; `timestamp` is
milliseconds since the Unix epoch, as serialised by `toJson`. -/
structure TransactionRecord where
  id : String
  operation : OperationType
  sourcePath : String
  destPath : String
  status : TransactionStatus
  timestamp : Int
  errorMessage : String
  checksum : Option String
deriving DecidableEq, Repr

/-- JSON string literal for a field value.  The embedding covers the strings
the repository actually writes, which contain no characters that jsoncpp
would escape. -/
def quoteStr (s : String) : String :=
  "\"" ++ s ++ "\""

/-- Serialisation of one record as `writeRecord` emits it:
`Json::writeString` with empty indentation produces a single line holding
one JSON object whose members are in alphabetical key order
(jsoncpp's `Json::Value` stores members in a sorted map). -/
def recordToLine (r : TransactionRecord) : String :=
  "\x7b"
    ++ (match r.checksum with
        | some c => "\"checksum\":" ++ quoteStr c ++ ","
        | none => "")
    ++ "\"destPath\":" ++ quoteStr r.destPath
    ++ ",\"errorMessage\":" ++ quoteStr r.errorMessage
    ++ ",\"id\":" ++ quoteStr r.id
    ++ ",\"operation\":" ++ toString r.operation.toNat
    ++ ",\"sourcePath\":" ++ quoteStr r.sourcePath
    ++ ",\"status\":" ++ toString r.status.toNat
    ++ ",\"timestamp\":" ++ toString r.timestamp
    ++ "\x7d"

/-- Scanner helper: consume an expected literal sequence of characters. -/
def eatChars (pre cs : List Char) : Option (List Char) :=
  if cs.take pre.length = pre then some (cs.drop pre.length) else none

/-- Scanner helper: read characters up to the closing quote of a JSON
string (the repository's strings contain no escapes). -/
def scanChars : List Char → Option (List Char × List Char)
  | [] => none
  | c :: rest =>
    if c = '"' then some ([], rest)
    else (scanChars rest).map (fun p => (c :: p.1, p.2))

/-- Scanner helper: the value of a digit sequence. -/
def digitsToNat (ds : List Char) : Nat :=
  ds.foldl (fun n c => 10 * n + (c.toNat - 48)) 0

/-- Structural split of a character list at a separator, agreeing with
`std::getline` line splitting (and `String.splitOn` for one-character
separators): a trailing separator contributes a final empty segment. -/
def splitOnChar (sep : Char) : List Char → List (List Char)
  | [] => [[]]
  | c :: rest =>
    let r := splitOnChar sep rest
    if c = sep then [] :: r
    else
      match r with
      | [] => [[c]]
      | h :: t => (c :: h) :: t

/-- Structural prefix test (`s.rfind`-style `find(pre) == 0` in the C++). -/
def strStartsWith (s pre : String) : Bool :=
  (eatChars pre.toList s.toList).isSome

/-- Structural model of `substr(n)`: drop the first `n` characters. -/
def strDrop (s : String) (n : Nat) : String :=
  String.mk (s.toList.drop n)

/-- Scanner helper: read a decimal natural number. -/
def scanNat (cs : List Char) : Option (Nat × List Char) :=
  let ds := cs.takeWhile Char.isDigit
  if ds = [] then none else some (digitsToNat ds, cs.drop ds.length)

/-- Scanner helper: read a decimal integer with an optional leading minus. -/
def scanInt (cs : List Char) : Option (Int × List Char) :=
  match cs with
  | '-' :: rest => (scanNat rest).map (fun p => (-(p.1 : Int), p.2))
  | _ => (scanNat cs).map (fun p => ((p.1 : Int), p.2))

/-- Scanner helper: literal label followed by a quoted string value. -/
def scanField (label : String) (cs : List Char) : Option (String × List Char) :=
  match eatChars label.toList cs with
  | none => none
  | some cs1 =>
    match scanChars cs1 with
    | none => none
    | some p => some (String.mk p.1, p.2)

/-- Scanner helper: literal label followed by a natural number value. -/
def scanNatField (label : String) (cs : List Char) : Option (Nat × List Char) :=
  match eatChars label.toList cs with
  | none => none
  | some cs1 => scanNat cs1

/-- Scanner helper: literal label followed by an integer value. -/
def scanIntField (label : String) (cs : List Char) : Option (Int × List Char) :=
  match eatChars label.toList cs with
  | none => none
  | some cs1 => scanInt cs1

/-- Scanner helper for the optional leading `checksum` member. -/
def parseChecksum (cs : List Char) : Option (Option String × List Char) :=
  if (eatChars "\"checksum\":\"".toList cs).isSome then
    match scanField "\"checksum\":\"" cs with
    | none => none
    | some (c, cs2) =>
      match eatChars [','] cs2 with
      | none => none
      | some cs3 => some (some c, cs3)
  else
    some (none, cs)

/-- Parse of one log line, modelling `Json::parseFromStream` followed by
`TransactionRecord::fromJson`: accepts exactly the single-line object
format `writeRecord` emits (any other line fails to parse and is treated
as malformed by replay). -/
def parseLine (s : String) : Option TransactionRecord :=
  match eatChars ['\x7b'] s.toList with
  | none => none
  | some cs0 =>
  match parseChecksum cs0 with
  | none => none
  | some (checksum, cs1) =>
  match scanField "\"destPath\":\"" cs1 with
  | none => none
  | some (dst, cs2) =>
  match scanField ",\"errorMessage\":\"" cs2 with
  | none => none
  | some (err, cs3) =>
  match scanField ",\"id\":\"" cs3 with
  | none => none
  | some (id, cs4) =>
  match scanNatField ",\"operation\":" cs4 with
  | none => none
  | some (opN, cs5) =>
  match OperationType.ofCode opN with
  | none => none
  | some op =>
  match scanField ",\"sourcePath\":\"" cs5 with
  | none => none
  | some (src, cs6) =>
  match scanNatField ",\"status\":" cs6 with
  | none => none
  | some (stN, cs7) =>
  match TransactionStatus.ofCode stN with
  | none => none
  | some st =>
  match scanIntField ",\"timestamp\":" cs7 with
  | none => none
  | some (ts, cs8) =>
  match eatChars ['\x7d'] cs8 with
  | none => none
  | some cs9 =>
  if cs9 = [] then some ⟨id, op, src, dst, st, ts, err, checksum⟩ else none

/-- Model of `std::stoull` as used on an id's trailing segment: parse the
longest leading digit sequence; `none` models the `std::invalid_argument`
throw when no digit leads (never the case for ids the log generates). -/
def stoullModel (s : String) : Option Nat :=
  scanNat s.toList |>.map (·.1)

/-- The trailing-counter parse performed during replay:
`record.id.find("tx-") == 0`, `find_last_of('-')`, `stoull(substr(...))`. -/
def trailingCounter (id : String) : Option Nat :=
  if strStartsWith id "tx-" then
    stoullModel (String.mk ((splitOnChar '-' id.toList).getLastD []))
  else
    none

/-- In-memory transaction cache `m_transactionCache`
(`std::unordered_map<std::string, TransactionRecord>`), modelled as an
association list in insertion order (iteration order of the real map is
unspecified; no claim depends on it). -/
def cacheInsert (m : List (String × TransactionRecord)) (k : String) (v : TransactionRecord) :
    List (String × TransactionRecord) :=
  if m.any (fun p => p.1 = k) then
    m.map (fun p => if p.1 = k then (k, v) else p)
  else
    m ++ [(k, v)]

/-- Lookup in the transaction cache. -/
def cacheFind (m : List (String × TransactionRecord)) (k : String) : Option TransactionRecord :=
  (m.find? (fun p => p.1 = k)).map (fun p => p.2)

/-- State of a `TransactionLog`: the current log file's on-disk content
(`none` when the file does not exist), the in-memory record cache,
`m_nextId` and `m_isOpen`. -/
structure State where
  file : Option String
  cache : List (String × TransactionRecord)
  nextId : Nat
  isOpen : Bool
deriving DecidableEq, Repr

/-- The `next_id` update applied per replayed record: when the record's id
parses as `tx-...-counter` and `counter >= next_id`, set
`next_id = counter + 1`. -/
def bumpNextId (r : TransactionRecord) (nid : Nat) : Nat :=
  match trailingCounter r.id with
  | some c => if nid ≤ c then c + 1 else nid
  | none => nid

/-- Replay fold of `loadAllTransactions` over the lines produced by
`std::getline`: empty lines are skipped, parse failures are skipped, a
parsed record is inserted into the cache and, when its id parses as
`tx-...-counter`, bumps `next_id` to `counter + 1` if `counter >= next_id`. -/
def replayLines (lines : List String) (cache : List (String × TransactionRecord)) (nextId : Nat) :
    List (String × TransactionRecord) × Nat :=
  match lines with
  | [] => (cache, nextId)
  | line :: rest =>
    if line = "" then replayLines rest cache nextId
    else
      match parseLine line with
      | none => replayLines rest cache nextId
      | some r => replayLines rest (cacheInsert cache r.id r) (bumpNextId r nextId)

/-- Splitting of the raw file content into `std::getline` lines: `splitOn`
by newline agrees with `getline` up to a final empty segment when the
content ends in a newline, and that empty segment is skipped by the
`line.empty()` check in the replay loop. -/
def fileLines (content : String) : List String :=
  (splitOnChar '\n' content.toList).map (fun cs => String.mk cs)

/-- Operation `TransactionLog::loadAllTransactions`: if the file exists,
clear the cache and replay every line; the append stream is closed and
reopened around the read, leaving `m_isOpen` as it was. -/
def loadAllTransactions (s : State) : State :=
  match s.file with
  | none => s
  | some content =>
    let r := replayLines (fileLines content) [] s.nextId
    { s with cache := r.1, nextId := r.2 }

/-- Operation `TransactionLog::open`: opens the append stream (creating the
file if absent).  It does not read the file: the cache and `m_nextId` are
untouched. -/
def openLog (s : State) : Bool × State :=
  if s.isOpen then (true, s)
  else (true, { s with isOpen := true, file := some (s.file.getD "") })

/-- Operation `TransactionLog::close`. -/
def closeLog (s : State) : State :=
  { s with isOpen := false }

/-- Helper `TransactionLog::writeRecord`: append one serialised line plus
newline, flush, and update the cache. -/
def writeRecord (s : State) (r : TransactionRecord) : State :=
  { s with
    file := some (s.file.getD "" ++ recordToLine r ++ "\n")
    cache := cacheInsert s.cache r.id r }

/-- Helper `TransactionLog::generateTransactionId`:
`"tx-" + timestamp_ms + "-" + m_nextId++`. -/
def generateTransactionId (now : Int) (nextId : Nat) : String :=
  "tx-" ++ toString now ++ "-" ++ toString nextId

/-- Operation `TransactionLog::logTransaction`: ensure the stream is open,
generate a fresh id, append a `PENDING` record, return the id. -/
def logTransaction (s : State) (op : OperationType) (sourcePath destPath : String)
    (checksum : Option String) (now : Int) : String × State :=
  let s1 := (openLog s).2
  let id := generateTransactionId now s1.nextId
  let s2 := { s1 with nextId := s1.nextId + 1 }
  let record : TransactionRecord := ⟨id, op, sourcePath, destPath, .PENDING, now, "", checksum⟩
  (id, writeRecord s2 record)

/-- Helper `TransactionLog::findTransaction`: cache lookup, falling back to
a full replay and a second lookup. -/
def findTransaction (s : State) (id : String) : Option TransactionRecord × State :=
  match cacheFind s.cache id with
  | some r => (some r, s)
  | none =>
    let s1 := loadAllTransactions s
    (cacheFind s1.cache id, s1)

/-- Operation `TransactionLog::updateTransactionStatus`: rewrite the found
record with the new status, error message and a fresh timestamp, as a new
appended line. -/
def updateTransactionStatus (s : State) (id : String) (status : TransactionStatus)
    (errorMessage : String) (now : Int) : Bool × State :=
  let s1 := (openLog s).2
  match findTransaction s1 id with
  | (none, s2) => (false, s2)
  | (some r, s2) =>
    (true, writeRecord s2 { r with status := status, errorMessage := errorMessage, timestamp := now })

/-- Operation `TransactionLog::getTransactionsByStatus`: replay, then
collect the cached records with the given status in map iteration order. -/
def getTransactionsByStatus (s : State) (status : TransactionStatus) :
    List TransactionRecord × State :=
  let s1 := loadAllTransactions s
  ((s1.cache.filter (fun p => p.2.status = status)).map (fun p => p.2), s1)

/-- Operation `TransactionLog::getPendingTransactions`:
`IN_PROGRESS` records followed by `PENDING` ones. -/
def getPendingTransactions (s : State) : List TransactionRecord × State :=
  let r1 := getTransactionsByStatus s .IN_PROGRESS
  let r2 := getTransactionsByStatus r1.2 .PENDING
  (r1.1 ++ r2.1, r2.2)

end TransactionLog

namespace FileVerification

/-- Model of `FileVerification::VerifyMethod`. -/
inductive VerifyMethod where
  | SIZE_ONLY
  | TIMESTAMP
  | FAST_HASH
  | SECURE_HASH
  | FULL_COMPARE
deriving DecidableEq, Repr

/-- Model of `FileVerification::VerifyResult`.  The `duration` field is a
wall-clock measurement with no logical content and is omitted. -/
structure VerifyResult where
  «matches» : Bool
  sourceHash : String
  destHash : String
  errorMessage : String
deriving DecidableEq, Repr

/-- Content and mtime of one regular file; bytes are naturals below 256 and
`mtime` is in milliseconds. -/
structure FileData where
  content : List Nat
  mtime : Int
deriving DecidableEq, Repr

/-- Abstract filesystem: a finite map from absolute paths to regular-file
data, plus the set of directory paths. -/
structure FileSystem where
  files : List (String × FileData)
  dirs : List String
deriving DecidableEq, Repr

/-- Lookup of a regular file. -/
def FileSystem.file? (fs : FileSystem) (p : String) : Option FileData :=
  ((fs.files.find? (fun q => q.1 = p)).map (fun q => q.2))

/-- Model of `fs::exists`. -/
def FileSystem.pathExists (fs : FileSystem) (p : String) : Bool :=
  (fs.file? p).isSome || fs.dirs.contains p

/-- Model of `fs::is_regular_file`. -/
def FileSystem.isRegularFile (fs : FileSystem) (p : String) : Bool :=
  (fs.file? p).isSome

/-- Model of `fs::is_directory`. -/
def FileSystem.isDirectory (fs : FileSystem) (p : String) : Bool :=
  fs.dirs.contains p

/-- Operation `FileVerification::verifyFile`.  The MD5 and SHA-256 digests
(OpenSSL) are parameters `md5` and `sha` from byte content to lower-case
hex; `calculateMD5`/`calculateSHA256` read the file in 8 KiB blocks, which
is digest-equivalent to hashing the whole content.  The result is `none`
exactly when both existence checks pass but a path is not a regular file,
where the C++ `fs::file_size` call would throw out of `verifyFile`.
Note that `m_hashCache` is NOT consulted: the code computes digests
unconditionally and never calls `isCacheValid` or `cacheHash`. -/
def verifyFile (md5 sha : List Nat → String) (fs : FileSystem)
    (sourcePath destPath : String) (method : VerifyMethod) : Option VerifyResult :=
  if ¬ fs.pathExists sourcePath then
    some ⟨false, "", "", "Source file does not exist"⟩
  else if ¬ fs.pathExists destPath then
    some ⟨false, "", "", "Destination file does not exist"⟩
  else
    match fs.file? sourcePath, fs.file? destPath with
    | some f, some g =>
      if f.content.length ≠ g.content.length then
        some ⟨false, "", "", "File sizes don't match"⟩
      else
        match method with
        | .SIZE_ONLY => some ⟨true, "", "", ""⟩
        | .TIMESTAMP =>
          if (f.mtime - g.mtime).natAbs ≤ 1000 then some ⟨true, "", "", ""⟩
          else some ⟨false, "", "", "Timestamps don't match within threshold"⟩
        | .FAST_HASH =>
          let sh := md5 f.content
          let dh := md5 g.content
          if sh = dh then some ⟨true, sh, dh, ""⟩
          else some ⟨false, sh, dh, "MD5 checksums don't match"⟩
        | .SECURE_HASH =>
          let sh := sha f.content
          let dh := sha g.content
          if sh = dh then some ⟨true, sh, dh, ""⟩
          else some ⟨false, sh, dh, "SHA-256 checksums don't match"⟩
        | .FULL_COMPARE =>
          if f.content = g.content then some ⟨true, "", "", ""⟩
          else some ⟨false, "", "", "File contents don't match"⟩
    | _, _ => none

/-- Model of one `m_hashCache` entry (`FileVerification::CacheEntry`):
the hash, the `system_clock` time at which `cacheHash` stored it, and the
file size at that moment. -/
structure CacheEntry where
  hash : String
  timestamp : Int
  fileSize : Nat
deriving DecidableEq, Repr

/-- Helper `FileVerification::cacheHash`: insert or overwrite the entry for
`filePath`, stamping it with the current time (`fileSize` falls back to 0
when `fs::file_size` throws). -/
def cacheHash (cache : List (String × CacheEntry)) (fs : FileSystem) (now : Int)
    (filePath hash : String) : List (String × CacheEntry) :=
  let size := match fs.file? filePath with
    | some f => f.content.length
    | none => 0
  let entry : CacheEntry := ⟨hash, now, size⟩
  if cache.any (fun p => p.1 = filePath) then
    cache.map (fun p => if p.1 = filePath then (filePath, entry) else p)
  else
    cache ++ [(filePath, entry)]

/-- Helper `FileVerification::isCacheValid`: `some hash` when an entry
exists, the current size equals the cached size, and the file's mtime is
not later than the entry's creation time; `none` otherwise (including the
catch-all for a throwing `fs::file_size`). -/
def isCacheValid (cache : List (String × CacheEntry)) (fs : FileSystem)
    (filePath : String) : Option String :=
  match (cache.find? (fun p => p.1 = filePath)).map (fun p => p.2) with
  | none => none
  | some e =>
    match fs.file? filePath with
    | none => none
    | some f =>
      if f.content.length ≠ e.fileSize ∨ e.timestamp < f.mtime then none
      else some e.hash

/-- Strip one leading separator, as the `relPath[0] == '/'` check does
(POSIX paths; the `'\\'`  branch is for Windows). -/
def stripLeadingSep (s : String) : String :=
  if TransactionLog.strStartsWith s "/" then TransactionLog.strDrop s 1 else s

/-- Length of `fs::path(p).root_path().string()` on POSIX: `"/"` for an
absolute path, empty otherwise. -/
def rootPathLength (p : String) : Nat :=
  if TransactionLog.strStartsWith p "/" then 1 else 0

/-- Relative path of `p` under `dir` as the directory scans compute it:
`entry.path().string().substr(dir.length())` then strip one separator. -/
def relUnder (dir p : String) : String :=
  stripLeadingSep (TransactionLog.strDrop p dir.length)

/-- Model of `fs::path(a) / b` for a relative, non-empty `b` under a
directory `a` that does not end in a separator. -/
def pathJoin (a b : String) : String :=
  a ++ "/" ++ b

/-- Model of `fs::recursive_directory_iterator(dir)` filtered by
`is_regular_file`: every regular file strictly below `dir`, in the model's
listing order (the OS iteration order is unspecified). -/
def walkFiles (fs : FileSystem) (dir : String) : List String :=
  (fs.files.map (fun q => q.1)).filter (fun p => TransactionLog.strStartsWith p (dir ++ "/"))

/-- The faulty per-pair label of `verifyDirectory`: the full source path
with only `root_path()` (the leading "/") stripped — not the path relative
to the walked root. -/
def pairLabel (p : String) : String :=
  TransactionLog.strDrop p (rootPathLength p)

/-- Sequencing of per-pair verification results: `some` of all results in
order, `none` as soon as one verification would throw. -/
def mapMOption {α β : Type} (f : α → Option β) : List α → Option (List β)
  | [] => some []
  | a :: as =>
    match f a, mapMOption f as with
    | some b, some bs => some (b :: bs)
    | _, _ => none

/-- Destination counterpart of a walked source file:
`fs::path(destDir) / relPath`. -/
def destOfSrc (destDir sourceDir p : String) : String :=
  pathJoin destDir (relUnder sourceDir p)

/-- The "File missing in destination" entries produced during the source
scan of `verifyDirectory`, in walk order. -/
def missingEntries (fs : FileSystem) (sourceDir destDir : String) :
    List (String × VerifyResult) :=
  ((walkFiles fs sourceDir).filter (fun p =>
      ¬ (fs.pathExists (destOfSrc destDir sourceDir p)
          ∧ fs.isRegularFile (destOfSrc destDir sourceDir p)))).map
    (fun p => (relUnder sourceDir p,
      (⟨false, "", "", "File missing in destination"⟩ : VerifyResult)))

/-- The `filePairs` list collected during the source scan. -/
def filePairsOf (fs : FileSystem) (sourceDir destDir : String) : List (String × String) :=
  ((walkFiles fs sourceDir).filter (fun p =>
      fs.pathExists (destOfSrc destDir sourceDir p)
        ∧ fs.isRegularFile (destOfSrc destDir sourceDir p))).map
    (fun p => (p, destOfSrc destDir sourceDir p))

/-- The "Extra file in destination" entries produced during the
destination scan. -/
def extraEntries (fs : FileSystem) (sourceDir destDir : String) :
    List (String × VerifyResult) :=
  ((walkFiles fs destDir).filter (fun p =>
      ¬ (fs.pathExists (pathJoin sourceDir (relUnder destDir p))
          ∧ fs.isRegularFile (pathJoin sourceDir (relUnder destDir p))))).map
    (fun p => (relUnder destDir p,
      (⟨false, "", "", "Extra file in destination"⟩ : VerifyResult)))

/-- The per-pair verification results, labelled with the faulty
`pairLabel` (root-stripped FULL source path, not the walk-relative path). -/
def pairEntries (md5 sha : List Nat → String) (fs : FileSystem)
    (sourceDir destDir : String) (method : VerifyMethod) :
    Option (List (String × VerifyResult)) :=
  mapMOption
    (fun pr => (verifyFile md5 sha fs pr.1 pr.2 method).map
      (fun res => (pairLabel pr.1, res)))
    (filePairsOf fs sourceDir destDir)

/-- Operation `FileVerification::verifyDirectory` (sequential semantics;
the `parallel` branch computes the same `(label, result)` pairs and only
interleaves their order in `results`, and is taken only when there is more
than one pair).  Returns `none` when a per-pair `verifyFile` would throw,
which cannot happen in a sequential history because the pair scan just
checked both sides are regular files. -/
def verifyDirectory (md5 sha : List Nat → String) (fs : FileSystem)
    (sourceDir destDir : String) (method : VerifyMethod) :
    Option (List (String × VerifyResult)) :=
  if ¬ (fs.pathExists sourceDir ∧ fs.isDirectory sourceDir) then
    some [("", ⟨false, "", "", "Source directory does not exist or is not a directory"⟩)]
  else if ¬ (fs.pathExists destDir ∧ fs.isDirectory destDir) then
    some [("", ⟨false, "", "", "Destination directory does not exist or is not a directory"⟩)]
  else
    match pairEntries md5 sha fs sourceDir destDir method with
    | none => none
    | some pairResults =>
      some (missingEntries fs sourceDir destDir ++ extraEntries fs sourceDir destDir
        ++ pairResults)

end FileVerification

namespace RobustSyncManager

/-- Helper `RobustSyncManager::determineDestinationPath`: filename of a
path, `fs::path(p).filename()`. -/
def filenameOf (p : String) : String :=
  String.mk ((TransactionLog.splitOnChar '/' p.toList).getLastD [])

/-- Helper `RobustSyncManager::determineDestinationPath`: replace the
hard-coded source root prefix, else route under the destination root by
basename. -/
def determineDestinationPath (sourcePath : String) : String :=
  if TransactionLog.strStartsWith sourcePath "/path/to/source" then
    "/path/to/destination" ++ TransactionLog.strDrop sourcePath ("/path/to/source".length)
  else
    "/path/to/destination/" ++ filenameOf sourcePath

/-- Environment of one `processTask` invocation: the id returned by
`logTransaction` (empty on log failure), the outcome of
`performSyncOperation`, and the verifier's result fields (read only when
the copy succeeded). -/
structure AttemptEnv where
  txId : String
  syncSuccess : Bool
  verifyMatches : Bool
  verifyErrorMessage : String
deriving DecidableEq, Repr

/-- One call into the transaction log made by `processTask`. -/
inductive LogCall where
  | logTx (op : TransactionLog.OperationType) (src dst : String)
  | updateStatus (id : String) (st : TransactionLog.TransactionStatus) (err : String)
deriving DecidableEq, Repr

/-- Observable outcome of one `processTask` invocation. -/
structure ProcessOutcome where
  logCalls : List LogCall
  metrics : List (String × String)
  retryTask : Option SyncTask
deriving DecidableEq, Repr

/-- The retry construction in `processTask`'s failure branch: when
`task.getRetryCount() < 3`, copy the task, `incrementRetry()`,
`setStatus("retry")` and re-enqueue it; otherwise give up. -/
def retryOf (task : SyncTask) : Option SyncTask :=
  if task.retryCount < 3 then
    some { task with retryCount := task.retryCount + 1, status := "retry" }
  else
    none

/-- Operation `RobustSyncManager::processTask` for one attempt, given the
environment of that attempt.  It logs a `COPY` transaction, marks it
`IN_PROGRESS`, copies, verifies with the default method, then marks
`COMPLETED`, or marks `FAILED` and builds the retry task. -/
def processTask (task : SyncTask) (env : AttemptEnv) : ProcessOutcome :=
  let sourcePath := task.path
  let destPath := determineDestinationPath sourcePath
  if env.txId = "" then
    { logCalls := [.logTx .COPY sourcePath destPath]
      metrics := [("tx_log_failed", sourcePath)]
      retryTask := none }
  else
    let errorMsg :=
      if env.syncSuccess then env.verifyErrorMessage else "Sync operation failed"
    let verifyMetrics :=
      if env.syncSuccess then
        [("sync_verification",
          if env.verifyMatches then "success" else "failed: " ++ env.verifyErrorMessage)]
      else
        []
    if env.syncSuccess ∧ env.verifyMatches then
      { logCalls :=
          [.logTx .COPY sourcePath destPath,
           .updateStatus env.txId .IN_PROGRESS "",
           .updateStatus env.txId .COMPLETED ""]
        metrics :=
          [("tx_started", env.txId)] ++ verifyMetrics ++ [("tx_completed", env.txId)]
        retryTask := none }
    else
      { logCalls :=
          [.logTx .COPY sourcePath destPath,
           .updateStatus env.txId .IN_PROGRESS "",
           .updateStatus env.txId .FAILED errorMsg]
        metrics :=
          [("tx_started", env.txId)] ++ verifyMetrics
            ++ [("tx_failed", env.txId ++ ": " ++ errorMsg)]
            ++ (match retryOf task with
                | some _ => [("tx_retry", env.txId)]
                | none => [])
        retryTask := retryOf task }

/-- Number of `processTask` invocations for one logical sync task: the
initial attempt plus one invocation per retry task, in the worst case in
which every retry is re-enqueued successfully and eventually dequeued.
Attempt `i` runs in environment `envs i`. -/
def chainInvocations (task : SyncTask) (envs : Nat → AttemptEnv) (i : Nat) : Nat :=
  match h : (processTask task (envs i)).retryTask with
  | none => 1
  | some t' => 1 + chainInvocations t' envs (i + 1)
termination_by 4 - task.retryCount
decreasing_by
  have hrc : task.retryCount < 3 ∧ t'.retryCount = task.retryCount + 1 := by
    unfold processTask at h
    by_cases h0 : (envs i).txId = ""
    · simp [h0] at h
    · simp only [h0, if_false, if_neg] at h
      by_cases h1 : (envs i).syncSuccess ∧ (envs i).verifyMatches
      · simp [h1] at h
      · simp only [if_pos, if_neg h1] at h
        unfold retryOf at h
        by_cases h2 : task.retryCount < 3
        · simp [h2] at h
          exact ⟨h2, by rw [← h]⟩
        · simp [h2] at h
  omega

/-- One action taken by the recovery pass. -/
inductive RecoveryAction where
  | updateStatus (id : String) (st : TransactionLog.TransactionStatus) (err : String)
  | enqueueTask (t : SyncTask)
  | metric (name value : String)
deriving DecidableEq, Repr

/-- Operation `RobustSyncManager::recoverTransaction`, as the list of
actions it performs: `fsEx` models `fs::exists` on the source path,
`enqOk` the success of the queue insertion, and `newTaskId` the counter
value `generateTaskId` hands to the constructed task. -/
def recoverTransaction (fsEx : String → Bool) (enqOk : Bool) (newTaskId : Nat)
    (tx : TransactionLog.TransactionRecord) : List RecoveryAction :=
  [.metric "tx_recovery_attempt" tx.id] ++
  (if ¬ fsEx tx.sourcePath then
    [.updateStatus tx.id .FAILED "Source file no longer exists",
     .metric "tx_recovery_failed" (tx.id ++ ": source missing")]
  else
    [.enqueueTask ⟨tx.sourcePath, "RECOVERY", .HIGH, 0, "pending", newTaskId⟩] ++
    (if enqOk then [.metric "tx_recovery_queued" tx.id]
     else [.metric "tx_recovery_queue_failed" tx.id]))

/-- The per-transaction loop of `RobustSyncManager::recoveryWorker` over
one `getPendingTransactions` snapshot: a transaction younger than five
minutes is skipped (`continue`), the rest are handed to
`recoverTransaction`. -/
def recoveryPass (now : Int) (fsEx : String → Bool) (enqOk : Bool) (newTaskId : Nat)
    (pending : List TransactionLog.TransactionRecord) : List RecoveryAction :=
  match pending with
  | [] => []
  | tx :: rest =>
    if now - tx.timestamp < 300000 then
      recoveryPass now fsEx enqOk newTaskId rest
    else
      recoverTransaction fsEx enqOk newTaskId tx ++ recoveryPass now fsEx enqOk newTaskId rest

/-- State of a `RobustSyncManager` visible to `syncFile`/`batchSync`:
`m_running`, the queue, the transaction log and the recorded metrics. -/
structure MState where
  running : Bool
  queue : PrioritySyncQueue.State
  log : TransactionLog.State
  metrics : List (String × String)
deriving DecidableEq, Repr

/-- Operation `RobustSyncManager::syncFile`: refuse when not running, else
construct a `SYNC` task and enqueue it, recording `file_queued` or
`file_queue_failed`. -/
def syncFile (s : MState) (path : String) (priority : SyncPriority) (newTaskId : Nat) :
    Bool × MState :=
  if ¬ s.running then (false, s)
  else
    let task : SyncTask := ⟨path, "SYNC", priority, 0, "pending", newTaskId⟩
    let r := PrioritySyncQueue.enqueue s.queue task
    let metric := if r.1 then ("file_queued", path) else ("file_queue_failed", path)
    (r.1, { s with queue := r.2, metrics := s.metrics ++ [metric] })

/-- Loop body of `RobustSyncManager::batchSync` over the path list. -/
def batchSyncLoop (q : PrioritySyncQueue.State) (metrics : List (String × String))
    (allQueued : Bool) (priority : SyncPriority) (newTaskId : Nat) :
    List String → Bool × PrioritySyncQueue.State × List (String × String)
  | [] => (allQueued, q, metrics)
  | path :: rest =>
    let task : SyncTask := ⟨path, "SYNC", priority, 0, "pending", newTaskId⟩
    let r := PrioritySyncQueue.enqueue q task
    let metric := if r.1 then ("file_queued", path) else ("file_queue_failed", path)
    batchSyncLoop r.2 (metrics ++ [metric]) (allQueued && r.1) priority (newTaskId + 1) rest

/-- Operation `RobustSyncManager::batchSync`: refuse when not running, else
enqueue every path, reporting whether all were queued. -/
def batchSync (s : MState) (paths : List String) (priority : SyncPriority)
    (firstTaskId : Nat) : Bool × MState :=
  if ¬ s.running then (false, s)
  else
    let r := batchSyncLoop s.queue s.metrics true priority firstTaskId paths
    (r.1, { s with queue := r.2.1, metrics := r.2.2 })

end RobustSyncManager

/-- Priority ordinal of a task, the value `operator<` compares. -/
def keyOf (t : SyncTask) : Nat :=
  t.priority.ord

namespace PrioritySyncQueue

/-- Binary max-heap invariant of `std::priority_queue` under `operator<`:
no parent compares less than its child, i.e. every parent's priority
ordinal is at most its child's. -/
def isHeap (l : List SyncTask) : Prop :=
  ∀ i, i < l.length → 0 < i → keyOf (getT l ((i - 1) / 2)) ≤ keyOf (getT l i)

/-- Heap invariant everywhere except at the child position `hole`. -/
def heapExcept (l : List SyncTask) (hole : Nat) : Prop :=
  ∀ i, i < l.length → 0 < i → i ≠ hole → keyOf (getT l ((i - 1) / 2)) ≤ keyOf (getT l i)

/-- Placing `v` at `hole` would satisfy the parent condition towards the
children of `hole`. -/
def childBound (l : List SyncTask) (hole : Nat) (v : SyncTask) : Prop :=
  ∀ i, i < l.length → 0 < i → (i - 1) / 2 = hole → keyOf v ≤ keyOf (getT l i)

/-- The hole's parent already dominates the hole's children. -/
def grandBound (l : List SyncTask) (hole : Nat) : Prop :=
  0 < hole → ∀ i, i < l.length → 0 < i → (i - 1) / 2 = hole →
    keyOf (getT l ((hole - 1) / 2)) ≤ keyOf (getT l i)

/-- Heap invariant on all parent-child pairs not involving the hole. -/
def heapExceptHole (l : List SyncTask) (hole : Nat) : Prop :=
  ∀ i, i < l.length → 0 < i → i ≠ hole → (i - 1) / 2 ≠ hole →
    keyOf (getT l ((i - 1) / 2)) ≤ keyOf (getT l i)

end PrioritySyncQueue

/-- Concrete task: first `NORMAL` enqueue of the FIFO scenario. -/
def qTaskA : SyncTask :=
  ⟨"/a", "SYNC", .NORMAL, 0, "pending", 1⟩

/-- Concrete task: second `NORMAL` enqueue of the FIFO scenario. -/
def qTaskB : SyncTask :=
  ⟨"/b", "SYNC", .NORMAL, 0, "pending", 2⟩

/-- Concrete task: a later `HIGH` enqueue. -/
def qTaskH : SyncTask :=
  ⟨"/h", "SYNC", .HIGH, 0, "pending", 3⟩

/-- A fresh queue with the default capacity 10000. -/
def qState0 : PrioritySyncQueue.State :=
  ⟨[], 10000, false⟩

/-- The queue after enqueuing `qTaskA`, `qTaskB`, `qTaskH` in that order. -/
def qState3 : PrioritySyncQueue.State :=
  (PrioritySyncQueue.enqueue
    (PrioritySyncQueue.enqueue
      (PrioritySyncQueue.enqueue qState0 qTaskA).2 qTaskB).2 qTaskH).2

/-- A record already on disk with trailing counter 5, as a fresh
`TransactionLog` object would find it. -/
def logRecord5 : TransactionLog.TransactionRecord :=
  ⟨"tx-900-5", .COPY, "/path/to/source/a", "/path/to/destination/a", .PENDING, 900, "", none⟩

/-- Log state of a freshly constructed `TransactionLog` whose current log
file already holds `logRecord5`: the constructor sets `m_nextId = 1`,
`m_isOpen = false` and an empty cache. -/
def logStateFresh : TransactionLog.State :=
  ⟨some (TransactionLog.recordToLine logRecord5 ++ "\n"), [], 1, false⟩

/-- A second on-disk record, used as an unterminated trailing line. -/
def logRecordTail : TransactionLog.TransactionRecord :=
  ⟨"tx-950-7", .COPY, "/path/to/source/b", "/path/to/destination/b", .IN_PROGRESS, 950, "", none⟩

/-- Log state whose file holds a good line, then a malformed line, then a
complete record NOT terminated by a newline (a crash mid-write after the
payload but before the newline). -/
def logStateTorn : TransactionLog.State :=
  ⟨some (TransactionLog.recordToLine logRecord5 ++ "\n"
      ++ "not a json record\n"
      ++ TransactionLog.recordToLine logRecordTail), [], 1, false⟩

/-- Concrete stand-in for the MD5 digest: injective on byte contents,
which is all the counterexamples need. -/
def md5Model (c : List Nat) : String :=
  "md5-" ++ String.intercalate "-" (c.map Nat.repr)

/-- Concrete stand-in for the SHA-256 digest. -/
def shaModel (c : List Nat) : String :=
  "sha-" ++ String.intercalate "-" (c.map Nat.repr)

/-- Two-byte file content used in the cache scenario. -/
def c7Data : FileVerification.FileData :=
  ⟨[104, 105], 500⟩

/-- Filesystem with identical source and destination files. -/
def c7FS : FileVerification.FileSystem :=
  ⟨[("/src/f", c7Data), ("/dst/f", c7Data)], []⟩

/-- Hash cache holding a still-valid entry for the source file: same size
(2 bytes) and cached (at time 600) after the file's mtime (500). -/
def c7Cache : List (String × FileVerification.CacheEntry) :=
  [("/src/f", ⟨"cachedhash", 600, 2⟩)]

/-- Filesystem for the directory-verification scenario: one regular file
`a.txt` present on both sides under `/src` and `/dst`. -/
def c9FS : FileVerification.FileSystem :=
  ⟨[("/src/a.txt", ⟨[104], 0⟩), ("/dst/a.txt", ⟨[104], 0⟩)], ["/src", "/dst"]⟩

/-- Filesystem with two regular files of different sizes. -/
def c8FS : FileVerification.FileSystem :=
  ⟨[("/s", ⟨[1, 2], 0⟩), ("/d", ⟨[1], 0⟩)], []⟩

/-- A fresh task (retry count 0) for the retry-cap scenario. -/
def taskFresh : SyncTask :=
  ⟨"/path/to/source/a", "SYNC", .NORMAL, 0, "pending", 7⟩

/-- Environment of an attempt whose copy fails. -/
def envFailing : RobustSyncManager.AttemptEnv :=
  ⟨"tx-1-1", false, false, ""⟩

/-- An `IN_PROGRESS` transaction older than the five-minute grace period
at time `400000`. -/
def txStale : TransactionLog.TransactionRecord :=
  ⟨"tx-1-1", .COPY, "/path/to/source/x", "/path/to/destination/x", .IN_PROGRESS, 0, "", none⟩

/-- A `PENDING` transaction younger than the grace period at time
`400000`. -/
def txYoung : TransactionLog.TransactionRecord :=
  ⟨"tx-2-2", .COPY, "/path/to/source/y", "/path/to/destination/y", .PENDING, 200000, "", none⟩

/-- A stopped sync manager (`m_running == false`). -/
def mStopped : RobustSyncManager.MState :=
  ⟨false, ⟨[], 10000, false⟩, ⟨none, [], 1, false⟩, []⟩

namespace PrioritySyncQueue

theorem getT_set_self (l : List SyncTask) (i : Nat) (v : SyncTask) (h : i < l.length) :
    getT (l.set i v) i = v := by
  simp [getT, List.getD, List.getElem?_set_self, h]

theorem getT_set_ne (l : List SyncTask) (i j : Nat) (v : SyncTask) (h : i ≠ j) :
    getT (l.set i v) j = getT l j := by
  simp [getT, List.getD, List.getElem?_set_ne h]

theorem getT_append_left (l m : List SyncTask) (i : Nat) (h : i < l.length) :
    getT (l ++ m) i = getT l i := by
  simp [getT, List.getD, List.getElem?_append_left h]

theorem getT_append_self (l : List SyncTask) (t : SyncTask) :
    getT (l ++ [t]) l.length = t := by
  simp [getT, List.getD]

theorem getT_take (l : List SyncTask) (n i : Nat) (h : i < n) :
    getT (l.take n) i = getT l i := by
  simp [getT, List.getD, List.getElem?_take, h]

theorem getT_eq_getElem (l : List SyncTask) (i : Nat) (h : i < l.length) :
    getT l i = l[i] :=
  List.getD_eq_getElem l defaultTask h

theorem taskLt_true {a b : SyncTask} (h : SyncTask.lt a b = true) : keyOf b < keyOf a := by
  simpa [SyncTask.lt, keyOf] using h

theorem taskLt_false {a b : SyncTask} (h : ¬ SyncTask.lt a b = true) : keyOf a ≤ keyOf b := by
  simp [SyncTask.lt, keyOf] at h
  exact h

theorem pushHeapAux_length (l : List SyncTask) (hole top : Nat) (v : SyncTask) :
    (pushHeapAux l hole top v).length = l.length := by
  induction l, hole, top, v using pushHeapAux.induct with
  | case1 l hole top v h ih =>
    rw [pushHeapAux, dif_pos h, ih, List.length_set]
  | case2 l hole top v h =>
    rw [pushHeapAux, dif_neg h, List.length_set]

theorem pushHeapAux_isHeap :
    ∀ hole (l : List SyncTask) (v : SyncTask), hole < l.length →
      heapExcept l hole → childBound l hole v → grandBound l hole →
      isHeap (pushHeapAux l hole 0 v) := by
  intro hole
  induction hole using Nat.strong_induction_on with
  | _ hole ih =>
    intro l v hlen hexc hch hgr
    rw [pushHeapAux]
    by_cases hc : 0 < hole ∧ SyncTask.lt (getT l ((hole - 1) / 2)) v = true
    · rw [dif_pos hc]
      obtain ⟨hpos, hlt⟩ := hc
      have hkey : keyOf v < keyOf (getT l ((hole - 1) / 2)) := taskLt_true hlt
      have hplt : (hole - 1) / 2 < hole := by omega
      have hpne : (hole - 1) / 2 ≠ hole := by omega
      refine ih ((hole - 1) / 2) hplt _ v (by rw [List.length_set]; omega) ?_ ?_ ?_
      · -- heapExcept (l.set hole (getT l parent)) parent
        intro i hi hipos hne
        rw [List.length_set] at hi
        by_cases hih : i = hole
        · subst hih
          rw [getT_set_self _ _ _ hlen, getT_set_ne _ _ _ _ (by omega : i ≠ (i - 1) / 2)]
        · by_cases hpari : (i - 1) / 2 = hole
          · rw [getT_set_ne _ _ _ _ (by omega : hole ≠ i), hpari,
              getT_set_self _ _ _ hlen]
            exact hgr hpos i hi hipos hpari
          · rw [getT_set_ne _ _ _ _ (by omega : hole ≠ i),
              getT_set_ne _ _ _ _ (by omega : hole ≠ (i - 1) / 2)]
            exact hexc i hi hipos hih
      · -- childBound at the parent
        intro i hi hipos hpari
        rw [List.length_set] at hi
        by_cases hih : i = hole
        · subst hih
          rw [getT_set_self _ _ _ hlen]
          exact hkey.le
        · rw [getT_set_ne _ _ _ _ (by omega : hole ≠ i)]
          have h1 : keyOf (getT l ((i - 1) / 2)) ≤ keyOf (getT l i) := hexc i hi hipos hih
          rw [hpari] at h1
          exact le_trans hkey.le h1
      · -- grandBound at the parent
        intro hppos i hi hipos hpari
        rw [List.length_set] at hi
        have hgne : ((hole - 1) / 2 - 1) / 2 ≠ hole := by omega
        rw [getT_set_ne _ _ _ _ (by omega : hole ≠ ((hole - 1) / 2 - 1) / 2)]
        have hppair : keyOf (getT l (((hole - 1) / 2 - 1) / 2)) ≤ keyOf (getT l ((hole - 1) / 2)) :=
          hexc ((hole - 1) / 2) (by omega) hppos hpne
        by_cases hih : i = hole
        · subst hih
          rw [getT_set_self _ _ _ hlen]
          exact hppair
        · rw [getT_set_ne _ _ _ _ (by omega : hole ≠ i)]
          have h1 : keyOf (getT l ((i - 1) / 2)) ≤ keyOf (getT l i) := hexc i hi hipos hih
          rw [hpari] at h1
          exact le_trans hppair h1
    · rw [dif_neg hc]
      intro i hi hipos
      rw [List.length_set] at hi
      by_cases hih : i = hole
      · subst hih
        have hpos : 0 < i := hipos
        have hnlt : ¬ SyncTask.lt (getT l ((i - 1) / 2)) v = true := by
          intro hl
          exact hc ⟨hpos, hl⟩
        have hle : keyOf (getT l ((i - 1) / 2)) ≤ keyOf v := taskLt_false hnlt
        rw [getT_set_self _ _ _ hlen, getT_set_ne _ _ _ _ (by omega : i ≠ (i - 1) / 2)]
        exact hle
      · by_cases hpari : (i - 1) / 2 = hole
        · rw [getT_set_ne _ _ _ _ (by omega : hole ≠ i), hpari, getT_set_self _ _ _ hlen]
          exact hch i hi hipos hpari
        · rw [getT_set_ne _ _ _ _ (by omega : hole ≠ i),
            getT_set_ne _ _ _ _ (by omega : hole ≠ (i - 1) / 2)]
          exact hexc i hi hipos hih

end PrioritySyncQueue

namespace PrioritySyncQueue

theorem chooseChild_bounds (l : List SyncTask) (sc : Nat) :
    2 * sc + 1 ≤ chooseChild l (2 * (sc + 1)) ∧ chooseChild l (2 * (sc + 1)) ≤ 2 * sc + 2 := by
  unfold chooseChild
  split <;> omega

theorem chooseChild_min (l : List SyncTask) (sc : Nat) :
    keyOf (getT l (chooseChild l (2 * (sc + 1)))) ≤ keyOf (getT l (2 * sc + 1)) ∧
    keyOf (getT l (chooseChild l (2 * (sc + 1)))) ≤ keyOf (getT l (2 * sc + 2)) := by
  have e1 : 2 * (sc + 1) - 1 = 2 * sc + 1 := by omega
  have e2 : 2 * (sc + 1) = 2 * sc + 2 := by omega
  unfold chooseChild
  split
  case isTrue h =>
    have := taskLt_true h
    rw [e1, e2] at *
    exact ⟨le_refl _, this.le⟩
  case isFalse h =>
    have := taskLt_false h
    rw [e1, e2] at *
    exact ⟨this, le_refl _⟩

theorem adjustLoop_spec :
    ∀ (l : List SyncTask) (hole sc len : Nat), len = l.length → hole = sc → sc < len →
      heapExceptHole l hole → grandBound l hole →
      (adjustLoop l hole sc len).1.length = len ∧
      (adjustLoop l hole sc len).2.1 = (adjustLoop l hole sc len).2.2 ∧
      (adjustLoop l hole sc len).2.2 < len ∧
      ¬ (adjustLoop l hole sc len).2.2 < (len - 1) / 2 ∧
      heapExceptHole (adjustLoop l hole sc len).1 (adjustLoop l hole sc len).2.1 ∧
      grandBound (adjustLoop l hole sc len).1 (adjustLoop l hole sc len).2.1 := by
  intro l hole sc len
  induction l, hole, sc, len using adjustLoop.induct with
  | case2 l hole sc len h =>
    intro hlen hhs hsc hexc hgr
    rw [adjustLoop, dif_neg h]
    subst hhs
    exact ⟨hlen.symm, rfl, hsc, h, hexc, hgr⟩
  | case1 l hole sc len h sc2 ih =>
    intro hlen hhs hsc hexc hgr
    subst hhs
    rw [adjustLoop]
    simp only [dif_pos h]
    have hc : sc2 = chooseChild l (2 * (hole + 1)) := rfl
    have hsc2 := chooseChild_bounds l hole
    have hscmin := chooseChild_min l hole
    rw [← hc] at hsc2 hscmin
    have hclen : sc2 < len := by omega
    have hcpar : (sc2 - 1) / 2 = hole := by omega
    have hcgt : hole < sc2 := by omega
    have hlen' : hole < l.length := by omega
    refine ih (by rw [List.length_set, hlen]) rfl hclen ?_ ?_
    · -- heapExceptHole (l.set hole (getT l sc2)) sc2
      intro i hi hipos hne hpar
      rw [List.length_set, ← hlen] at hi
      by_cases hih : i = hole
      · subst hih
        rw [getT_set_self _ _ _ hlen', getT_set_ne _ _ _ _ (by omega : i ≠ (i - 1) / 2)]
        exact hgr hipos sc2 (by omega) (by omega) hcpar
      · by_cases hpari : (i - 1) / 2 = hole
        · -- i is the sibling of sc2 (i = sc2 itself is excluded)
          rw [getT_set_ne _ _ _ _ (by omega : hole ≠ i), hpari, getT_set_self _ _ _ hlen']
          have hrange : i = 2 * hole + 1 ∨ i = 2 * hole + 2 := by omega
          rcases hrange with hr | hr <;> rw [hr]
          · exact hscmin.1
          · exact hscmin.2
        · rw [getT_set_ne _ _ _ _ (by omega : hole ≠ i),
            getT_set_ne _ _ _ _ (by omega : hole ≠ (i - 1) / 2)]
          exact hexc i (by omega) hipos hih hpari
    · -- grandBound (l.set hole (getT l sc2)) sc2
      intro hcpos i hi hipos hpari
      rw [List.length_set, ← hlen] at hi
      rw [hcpar, getT_set_self _ _ _ hlen',
        getT_set_ne _ _ _ _ (by omega : hole ≠ i), ← hpari]
      exact hexc i (by omega) hipos (by omega) (by omega)

end PrioritySyncQueue

namespace PrioritySyncQueue

theorem adjustHeap_isHeap (l : List SyncTask) (v : SyncTask) (hlen : 0 < l.length)
    (hexc : heapExceptHole l 0) : isHeap (adjustHeap l 0 v) := by
  have hgr0 : grandBound l 0 := by
    intro h0
    exact absurd h0 (by omega)
  have hspec := adjustLoop_spec l 0 0 l.length rfl rfl hlen hexc hgr0
  unfold adjustHeap
  dsimp only
  generalize hg : adjustLoop l 0 0 l.length = radj
  rw [hg] at hspec
  obtain ⟨hL, hHS, hlt, hexit, hEx, hGr⟩ := hspec
  by_cases hepi : l.length % 2 = 0 ∧ radj.2.2 = (l.length - 2) / 2
  · simp only [if_pos hepi]
    obtain ⟨heven, hsc⟩ := hepi
    have hge2 : 2 ≤ l.length := by omega
    have hc : 2 * (radj.2.2 + 1) - 1 = l.length - 1 := by omega
    have hhole : radj.2.1 = (l.length - 2) / 2 := by rw [hHS, hsc]
    have hhlt : radj.2.1 < l.length - 1 := by omega
    rw [hc]
    refine pushHeapAux_isHeap (l.length - 1) _ v ?_ ?_ ?_ ?_
    · rw [List.length_set, hL]
      omega
    · -- heapExcept after moving the single left child up to the old hole
      intro i hi hipos hne
      rw [List.length_set, hL] at hi
      by_cases hih : i = radj.2.1
      · have hipos2 : 0 < radj.2.1 := hih ▸ hipos
        rw [hih, getT_set_self _ _ _ (by omega),
          getT_set_ne _ _ _ _ (by omega : radj.2.1 ≠ (radj.2.1 - 1) / 2)]
        exact hGr (by omega) (l.length - 1) (by omega) (by omega) (by omega)
      · by_cases hpari : (i - 1) / 2 = radj.2.1
        · exfalso
          omega
        · rw [getT_set_ne _ _ _ _ (by omega : radj.2.1 ≠ i),
            getT_set_ne _ _ _ _ (by omega : radj.2.1 ≠ (i - 1) / 2)]
          exact hEx i (by omega) hipos hih hpari
    · intro i hi hipos hpari
      exfalso
      rw [List.length_set, hL] at hi
      omega
    · intro hpos i hi hipos hpari
      exfalso
      rw [List.length_set, hL] at hi
      omega
  · simp only [if_neg hepi]
    have hleaf : l.length ≤ 2 * radj.2.2 + 1 := by
      rcases Nat.lt_or_ge (2 * radj.2.2 + 1) l.length with hlt2 | hge
      · exfalso
        apply hepi
        constructor <;> omega
      · exact hge
    refine pushHeapAux_isHeap radj.2.1 _ v ?_ ?_ ?_ ?_
    · rw [hL, hHS]
      exact hlt
    · intro i hi hipos hne
      rw [hL] at hi
      by_cases hpari : (i - 1) / 2 = radj.2.1
      · exfalso
        omega
      · exact hEx i (by omega) hipos hne hpari
    · intro i hi hipos hpari
      exfalso
      rw [hL] at hi
      omega
    · intro hpos i hi hipos hpari
      exfalso
      rw [hL] at hi
      omega

theorem heapPush_isHeap (l : List SyncTask) (t : SyncTask) (h : isHeap l) :
    isHeap (heapPush l t) := by
  unfold heapPush
  refine pushHeapAux_isHeap l.length _ t ?_ ?_ ?_ ?_
  · simp
  · intro i hi hipos hne
    rw [List.length_append, List.length_cons, List.length_nil] at hi
    have hi2 : i < l.length := by omega
    rw [getT_append_left _ _ _ hi2, getT_append_left _ _ _ (by omega)]
    exact h i hi2 hipos
  · intro i hi hipos hpari
    exfalso
    rw [List.length_append, List.length_cons, List.length_nil] at hi
    omega
  · intro hpos i hi hipos hpari
    exfalso
    rw [List.length_append, List.length_cons, List.length_nil] at hi
    omega

theorem heapPop_isHeap (l : List SyncTask) (h : isHeap l) : isHeap (heapPop l).2 := by
  match l with
  | [] =>
    intro i hi hipos
    simp [heapPop] at hi
  | [t] =>
    intro i hi hipos
    simp [heapPop] at hi
  | a :: b :: rest =>
    show isHeap (adjustHeap ((a :: b :: rest).take ((a :: b :: rest).length - 1)) 0
      (getT (a :: b :: rest) ((a :: b :: rest).length - 1)))
    have hlen : ((a :: b :: rest).take ((a :: b :: rest).length - 1)).length
        = (a :: b :: rest).length - 1 := by
      rw [List.length_take]
      omega
    refine adjustHeap_isHeap _ _ ?_ ?_
    · rw [hlen]
      simp
    · intro i hi hipos hne hpar
      rw [hlen] at hi
      rw [getT_take _ _ _ (by omega), getT_take _ _ _ (by omega)]
      exact h i (by omega) hipos

theorem heapPop_fst_root (l : List SyncTask) (h : l ≠ []) :
    (heapPop l).1 = some (getT l 0) := by
  match l with
  | [t] => simp [heapPop, getT]
  | a :: b :: rest => simp [heapPop]

theorem isHeap_root_le (l : List SyncTask) (h : isHeap l) :
    ∀ i, i < l.length → keyOf (getT l 0) ≤ keyOf (getT l i) := by
  intro i
  induction i using Nat.strong_induction_on with
  | _ i ih =>
    intro hi
    rcases Nat.eq_zero_or_pos i with h0 | hpos
    · subst h0
      exact le_refl _
    · exact le_trans (ih ((i - 1) / 2) (by omega) (by omega)) (h i hi hpos)

theorem reachable_isHeap {s : State} (h : Reachable s) : isHeap s.tasks := by
  induction h with
  | init cap =>
    intro i hi hipos
    simp at hi
  | enq t hr ih =>
    unfold enqueue
    split
    · exact ih
    · split
      · exact heapPush_isHeap _ _ ih
      · exact ih
  | deq hr ih =>
    unfold dequeue
    split
    · exact ih
    · exact heapPop_isHeap _ ih

end PrioritySyncQueue

theorem qState3_eval : qState3 = ⟨[qTaskH, qTaskB, qTaskA], 10000, false⟩ := by
  simp +decide [qState3, qState0, qTaskA, qTaskB, qTaskH, PrioritySyncQueue.enqueue,
    PrioritySyncQueue.heapPush, PrioritySyncQueue.pushHeapAux.eq_def, getT,
    SyncTask.lt, SyncPriority.ord]

theorem qDeq1 : PrioritySyncQueue.dequeue ⟨[qTaskH, qTaskB, qTaskA], 10000, false⟩
    = (some qTaskH, ⟨[qTaskB, qTaskA], 10000, false⟩) := by
  simp +decide [qTaskA, qTaskB, qTaskH, PrioritySyncQueue.dequeue, PrioritySyncQueue.heapPop,
    PrioritySyncQueue.adjustHeap, PrioritySyncQueue.adjustLoop.eq_def,
    PrioritySyncQueue.chooseChild, PrioritySyncQueue.pushHeapAux.eq_def, getT,
    SyncTask.lt, SyncPriority.ord]

theorem qDeq2 : PrioritySyncQueue.dequeue ⟨[qTaskB, qTaskA], 10000, false⟩
    = (some qTaskB, ⟨[qTaskA], 10000, false⟩) := by
  simp +decide [qTaskA, qTaskB, PrioritySyncQueue.dequeue, PrioritySyncQueue.heapPop,
    PrioritySyncQueue.adjustHeap, PrioritySyncQueue.adjustLoop.eq_def,
    PrioritySyncQueue.chooseChild, PrioritySyncQueue.pushHeapAux.eq_def, getT,
    SyncTask.lt, SyncPriority.ord]

theorem qDeq3 : PrioritySyncQueue.dequeue ⟨[qTaskA], 10000, false⟩
    = (some qTaskA, ⟨[], 10000, false⟩) := by
  simp +decide [qTaskA, PrioritySyncQueue.dequeue, PrioritySyncQueue.heapPop,
    PrioritySyncQueue.adjustHeap, PrioritySyncQueue.adjustLoop.eq_def,
    PrioritySyncQueue.chooseChild, PrioritySyncQueue.pushHeapAux.eq_def, getT,
    SyncTask.lt, SyncPriority.ord]

theorem qState3_reachable : PrioritySyncQueue.Reachable qState3 :=
  .enq qTaskH (.enq qTaskB (.enq qTaskA (.init 10000)))

/-- C1: for any sequence of enqueues and dequeues without shutdown,
whenever `dequeue` returns a task, that task has the minimal priority
ordinal among all tasks currently in the queue; in particular, no
`NORMAL` task is dequeued while a `HIGH` task is present. -/
theorem C1_strict_priority (s : PrioritySyncQueue.State)
    (hr : PrioritySyncQueue.Reachable s) (hsd : s.shutdownFlag = false)
    (t : SyncTask) (hdq : (PrioritySyncQueue.dequeue s).1 = some t) :
    (∀ u ∈ s.tasks, t.priority.ord ≤ u.priority.ord) ∧
    ((∃ u ∈ s.tasks, u.priority = SyncPriority.HIGH) → t.priority ≠ SyncPriority.NORMAL) := by
  have hheap := PrioritySyncQueue.reachable_isHeap hr
  unfold PrioritySyncQueue.dequeue at hdq
  by_cases he : s.tasks.isEmpty
  · rw [if_pos he] at hdq
    simp at hdq
  · rw [if_neg he] at hdq
    have hne : s.tasks ≠ [] := by simpa [List.isEmpty_iff] using he
    rw [PrioritySyncQueue.heapPop_fst_root _ hne] at hdq
    have ht : t = getT s.tasks 0 := by
      injection hdq with h
      exact h.symm
    have hmin : ∀ u ∈ s.tasks, t.priority.ord ≤ u.priority.ord := by
      intro u hu
      obtain ⟨i, hilt, hgi⟩ := List.mem_iff_getElem.mp hu
      have hle := PrioritySyncQueue.isHeap_root_le _ hheap i hilt
      rw [PrioritySyncQueue.getT_eq_getElem _ _ hilt, hgi] at hle
      rw [ht]
      exact hle
    refine ⟨hmin, ?_⟩
    rintro ⟨u, hu, hup⟩ hnt
    have hcon := hmin u hu
    rw [hup, hnt] at hcon
    simp [SyncPriority.ord] at hcon

/-- Witness for C1, on the concrete run that enqueues two `NORMAL` tasks
and one `HIGH` task: the dequeued task is the `HIGH` one. -/
theorem C1_strict_priority_witness :
    qTaskH.priority.ord ≤ qTaskA.priority.ord ∧ qTaskH.priority ≠ SyncPriority.NORMAL := by
  have h := C1_strict_priority qState3 qState3_reachable
    (by rw [qState3_eval]) qTaskH
    (by rw [qState3_eval, qDeq1])
  refine ⟨h.1 qTaskA ?_, h.2 ⟨qTaskH, ?_, rfl⟩⟩
  · rw [qState3_eval]
    simp
  · rw [qState3_eval]
    simp

/-- Counterexample to C2: `qTaskA` and `qTaskB` have equal priority and
`qTaskA` is enqueued first, yet after the run
enqueue A, enqueue B, enqueue H the dequeue order is H, B, A — the
later-enqueued equal-priority task `qTaskB` comes out before `qTaskA`,
so dequeue order does not equal enqueue order. -/
theorem C2_fifo_counterexample :
    qTaskA.priority = qTaskB.priority ∧
    qTaskA.taskId < qTaskB.taskId ∧
    (PrioritySyncQueue.dequeue qState3).1 = some qTaskH ∧
    (PrioritySyncQueue.dequeue (PrioritySyncQueue.dequeue qState3).2).1 = some qTaskB ∧
    (PrioritySyncQueue.dequeue
      (PrioritySyncQueue.dequeue (PrioritySyncQueue.dequeue qState3).2).2).1 = some qTaskA := by
  rw [qState3_eval, qDeq1]
  rw [qDeq2]
  rw [qDeq3]
  refine ⟨rfl, by decide, rfl, rfl, rfl⟩

/-- Amended C2: equal-priority tasks are dequeued in binary-heap pop order,
which need not equal enqueue order — the queue assigns no sequence number,
so there is a reachable run in which the earlier-enqueued of two
equal-priority tasks is dequeued later. -/
theorem C2_fifo_amended :
    ∃ (a b c : SyncTask) (cap : Nat),
      a.priority = b.priority ∧ a.taskId < b.taskId ∧
      (PrioritySyncQueue.dequeue
        (PrioritySyncQueue.enqueue
          (PrioritySyncQueue.enqueue
            (PrioritySyncQueue.enqueue ⟨[], cap, false⟩ a).2 b).2 c).2).1 = some c ∧
      (PrioritySyncQueue.dequeue
        (PrioritySyncQueue.dequeue
          (PrioritySyncQueue.enqueue
            (PrioritySyncQueue.enqueue
              (PrioritySyncQueue.enqueue ⟨[], cap, false⟩ a).2 b).2 c).2).2).1 = some b ∧
      (PrioritySyncQueue.dequeue
        (PrioritySyncQueue.dequeue
          (PrioritySyncQueue.dequeue
            (PrioritySyncQueue.enqueue
              (PrioritySyncQueue.enqueue
                (PrioritySyncQueue.enqueue ⟨[], cap, false⟩ a).2 b).2 c).2).2).2).1 = some a := by
  refine ⟨qTaskA, qTaskB, qTaskH, 10000, rfl, by decide, ?_, ?_, ?_⟩ <;>
    simp only [show (PrioritySyncQueue.enqueue
          (PrioritySyncQueue.enqueue
            (PrioritySyncQueue.enqueue ⟨[], 10000, false⟩ qTaskA).2 qTaskB).2 qTaskH).2
        = (⟨[qTaskH, qTaskB, qTaskA], 10000, false⟩ : PrioritySyncQueue.State)
      from qState3_eval, qDeq1, qDeq2, qDeq3]

set_option maxRecDepth 8000

namespace TransactionLog

theorem parseLine_empty : parseLine "" = none := by
  decide

theorem bumpNextId_mono (r : TransactionRecord) (nid : Nat) : nid ≤ bumpNextId r nid := by
  unfold bumpNextId
  split
  · split <;> omega
  · exact le_refl _

theorem bumpNextId_gt (r : TransactionRecord) (nid c : Nat)
    (h : trailingCounter r.id = some c) : c < bumpNextId r nid := by
  have he : bumpNextId r nid = if nid ≤ c then c + 1 else nid := by
    unfold bumpNextId
    rw [h]
  rw [he]
  split <;> omega

theorem replayLines_mono :
    ∀ (lines : List String) (cache : List (String × TransactionRecord)) (nid : Nat),
      nid ≤ (replayLines lines cache nid).2 := by
  intro lines
  induction lines with
  | nil =>
    intro cache nid
    exact le_refl _
  | cons l0 rest ih =>
    intro cache nid
    rw [replayLines]
    by_cases h0 : l0 = ""
    · rw [if_pos h0]
      exact ih cache nid
    · rw [if_neg h0]
      cases hpl : parseLine l0 with
      | none => exact ih cache nid
      | some r0 =>
        show nid ≤ (replayLines rest (cacheInsert cache r0.id r0) (bumpNextId r0 nid)).2
        exact le_trans (bumpNextId_mono r0 nid)
          (ih (cacheInsert cache r0.id r0) (bumpNextId r0 nid))

theorem replay_counter_lt :
    ∀ (lines : List String) (cache : List (String × TransactionRecord)) (nid : Nat)
      (line : String) (r : TransactionRecord) (c : Nat),
      line ∈ lines → parseLine line = some r → trailingCounter r.id = some c →
      c < (replayLines lines cache nid).2 := by
  intro lines
  induction lines with
  | nil =>
    intro cache nid line r c hmem
    simp at hmem
  | cons l0 rest ih =>
    intro cache nid line r c hmem hp ht
    rw [replayLines]
    by_cases h0 : l0 = ""
    · rw [if_pos h0]
      rcases List.mem_cons.mp hmem with he | hm
      · exfalso
        rw [he, h0, parseLine_empty] at hp
        exact Option.noConfusion hp
      · exact ih cache nid line r c hm hp ht
    · rw [if_neg h0]
      cases hpl : parseLine l0 with
      | none =>
        rcases List.mem_cons.mp hmem with he | hm
        · exfalso
          rw [he, hpl] at hp
          exact Option.noConfusion hp
        · exact ih _ _ line r c hm hp ht
      | some r0 =>
        rcases List.mem_cons.mp hmem with he | hm
        · rw [he, hpl] at hp
          have hr : r0 = r := Option.some.inj hp
          subst hr
          have hmono := replayLines_mono rest (cacheInsert cache r0.id r0) (bumpNextId r0 nid)
          have hgt : c < bumpNextId r0 nid := bumpNextId_gt r0 nid c ht
          show c < (replayLines rest (cacheInsert cache r0.id r0) (bumpNextId r0 nid)).2
          omega
        · show c < (replayLines rest (cacheInsert cache r0.id r0) (bumpNextId r0 nid)).2
          exact ih _ _ line r c hm hp ht

end TransactionLog

/-- Counterexample to C3: a freshly constructed `TransactionLog` whose
current log file already holds a record with trailing counter 5.
`open()` succeeds but performs no replay: the cache stays empty and
`next_id` stays 1, although the on-disk record parses and its counter
parses to 5; the next `logTransaction` then returns an id whose embedded
counter is 1, NOT greater than the counter 5 already present in the file. -/
theorem C3_open_counterexample :
    (TransactionLog.openLog logStateFresh).1 = true ∧
    (TransactionLog.openLog logStateFresh).2.cache = [] ∧
    (TransactionLog.openLog logStateFresh).2.nextId = 1 ∧
    TransactionLog.parseLine (TransactionLog.recordToLine logRecord5) = some logRecord5 ∧
    TransactionLog.trailingCounter logRecord5.id = some 5 ∧
    (TransactionLog.logTransaction (TransactionLog.openLog logStateFresh).2
      TransactionLog.OperationType.COPY
      "/path/to/source/c" "/path/to/destination/c" none 2000).1 = "tx-2000-1" ∧
    TransactionLog.trailingCounter "tx-2000-1" = some 1 := by
  decide

/-- C3 (amended): `open()` does not replay; the replay is performed by
`loadAllTransactions` (reached through `findTransaction` or
`getTransactionsByStatus`), which populates the cache and raises
`next_id` strictly above every counter parsed from the file.  Every id
generated by `logTransaction` embeds the current `next_id`, which is then
incremented, so ids generated after a replay carry counters strictly
greater than every parsed counter, and counters of successively generated
ids are strictly increasing. -/
theorem C3_replay_amended :
    (∀ (s : TransactionLog.State) (content line : String)
        (r : TransactionLog.TransactionRecord) (c : Nat),
      s.file = some content →
      line ∈ TransactionLog.fileLines content →
      TransactionLog.parseLine line = some r →
      TransactionLog.trailingCounter r.id = some c →
      c < (TransactionLog.loadAllTransactions s).nextId) ∧
    (∀ (s : TransactionLog.State) (op : TransactionLog.OperationType) (src dst : String)
        (chk : Option String) (now : Int),
      (TransactionLog.logTransaction s op src dst chk now).1
        = TransactionLog.generateTransactionId now s.nextId ∧
      (TransactionLog.logTransaction s op src dst chk now).2.nextId = s.nextId + 1) ∧
    TransactionLog.trailingCounter (TransactionLog.generateTransactionId 2000 6) = some 6 := by
  refine ⟨?_, ?_, by decide⟩
  · intro s content line r c hf hm hp ht
    have hred : (TransactionLog.loadAllTransactions s).nextId
        = (TransactionLog.replayLines (TransactionLog.fileLines content) [] s.nextId).2 := by
      unfold TransactionLog.loadAllTransactions
      rw [hf]
    rw [hred]
    exact TransactionLog.replay_counter_lt _ _ _ line r c hm hp ht
  · intro s op src dst chk now
    unfold TransactionLog.logTransaction TransactionLog.openLog TransactionLog.writeRecord
    by_cases ho : s.isOpen
    · simp [ho]
    · simp [ho]

/-- Witness for the amended C3 at the concrete fresh-log state: the replay
raises `next_id` above the parsed counter 5, and `logTransaction` returns
the id embedding the current `next_id`. -/
theorem C3_replay_amended_witness :
    5 < (TransactionLog.loadAllTransactions logStateFresh).nextId ∧
    (TransactionLog.logTransaction logStateFresh TransactionLog.OperationType.COPY
      "/s" "/d" none 2000).1
      = TransactionLog.generateTransactionId 2000 logStateFresh.nextId := by
  obtain ⟨h1, h2, _⟩ := C3_replay_amended
  exact ⟨h1 logStateFresh (TransactionLog.recordToLine logRecord5 ++ "\n")
      (TransactionLog.recordToLine logRecord5) logRecord5 5 rfl (by decide) (by decide)
      (by decide),
    (h2 logStateFresh TransactionLog.OperationType.COPY "/s" "/d" none 2000).1⟩

/-- Counterexample to C4: the torn log file ends in a complete record line
with NO terminating newline; replay does not discard it — the record is in
the cache after `loadAllTransactions` (while the malformed middle line is
skipped and replay continues, the part of the claim that does hold). -/
theorem C4_partial_line_counterexample :
    (TransactionLog.recordToLine logRecord5 ++ "\n" ++ "not a json record\n"
        ++ TransactionLog.recordToLine logRecordTail).toList.getLast? ≠ some '\n' ∧
    TransactionLog.parseLine "not a json record" = none ∧
    TransactionLog.parseLine (TransactionLog.recordToLine logRecordTail) = some logRecordTail ∧
    (TransactionLog.loadAllTransactions logStateTorn).cache =
      [(logRecord5.id, logRecord5), (logRecordTail.id, logRecordTail)] := by
  decide

/-- C4 (amended): during replay a line that fails to parse is skipped and
replay continues — the replay result equals the replay of just the
parseable lines; a trailing line not terminated by a newline is NOT
discarded: it is processed like every other line (kept iff it parses),
since a final newline only contributes an empty trailing segment, which
changes nothing. -/
theorem C4_replay_amended :
    (∀ (lines : List String) (cache : List (String × TransactionLog.TransactionRecord))
        (nid : Nat),
      TransactionLog.replayLines lines cache nid
        = TransactionLog.replayLines
            (lines.filter (fun l => (TransactionLog.parseLine l).isSome)) cache nid) ∧
    (∀ (lines : List String) (cache : List (String × TransactionLog.TransactionRecord))
        (nid : Nat),
      TransactionLog.replayLines (lines ++ [""]) cache nid
        = TransactionLog.replayLines lines cache nid) := by
  constructor
  · intro lines
    induction lines with
    | nil =>
      intro cache nid
      rfl
    | cons l0 rest ih =>
      intro cache nid
      rw [TransactionLog.replayLines, List.filter_cons]
      by_cases h0 : l0 = ""
      · rw [if_pos h0]
        have hnone : TransactionLog.parseLine l0 = none := by
          rw [h0, TransactionLog.parseLine_empty]
        rw [if_neg (by simp [hnone])]
        exact ih cache nid
      · rw [if_neg h0]
        cases hpl : TransactionLog.parseLine l0 with
        | none =>
          rw [if_neg (by simp [hpl])]
          exact ih cache nid
        | some r0 =>
          rw [if_pos (by simp [hpl])]
          rw [TransactionLog.replayLines, if_neg h0, hpl]
          exact ih _ _
  · intro lines
    induction lines with
    | nil =>
      intro cache nid
      rfl
    | cons l0 rest ih =>
      intro cache nid
      rw [List.cons_append, TransactionLog.replayLines, TransactionLog.replayLines]
      by_cases h0 : l0 = ""
      · rw [if_pos h0, if_pos h0]
        exact ih cache nid
      · rw [if_neg h0, if_neg h0]
        cases hpl : TransactionLog.parseLine l0 with
        | none => exact ih cache nid
        | some r0 => exact ih _ _

namespace RobustSyncManager

theorem processTask_retry_some (task : SyncTask) (env : AttemptEnv) (t' : SyncTask)
    (h : (processTask task env).retryTask = some t') :
    env.txId ≠ "" ∧ ¬ (env.syncSuccess = true ∧ env.verifyMatches = true) ∧
    task.retryCount < 3 ∧ t'.retryCount = task.retryCount + 1 ∧
    t'.path = task.path ∧ t'.status = "retry" := by
  unfold processTask at h
  by_cases h0 : env.txId = ""
  · simp [h0] at h
  · simp only [h0, if_false, if_neg] at h
    by_cases h1 : env.syncSuccess ∧ env.verifyMatches
    · simp [h1] at h
    · simp only [if_pos, if_neg h1] at h
      unfold retryOf at h
      by_cases h2 : task.retryCount < 3
      · simp only [if_pos h2] at h
        have ht : ({ task with retryCount := task.retryCount + 1, status := "retry" } : SyncTask)
            = t' := Option.some.inj h
        refine ⟨h0, by simpa using h1, h2, ?_, ?_, ?_⟩ <;> rw [← ht]
      · simp [h2] at h

theorem chainInvocations_le :
    ∀ (n : Nat) (task : SyncTask) (envs : Nat → AttemptEnv) (i : Nat),
      3 - task.retryCount ≤ n → chainInvocations task envs i ≤ n + 1 := by
  intro n
  induction n with
  | zero =>
    intro task envs i hb
    rw [chainInvocations.eq_def]
    split
    · exact le_refl 1
    case _ t' heq =>
      exfalso
      have := (processTask_retry_some task (envs i) t' heq).2.2.1
      omega
  | succ n ih =>
    intro task envs i hb
    rw [chainInvocations.eq_def]
    split
    · omega
    case _ t' heq =>
      obtain ⟨-, -, hlt, hinc, -, -⟩ := processTask_retry_some task (envs i) t' heq
      have := ih t' envs (i + 1) (by omega)
      omega

end RobustSyncManager

/-- C5: for any single logical sync task (a fresh task and the chain of
retry tasks built from it), `processTask` runs at most
`max_retries + 1 = 4` times; a failing attempt builds a retry only while
`retry_count < 3`, the retry carries `retry_count + 1`, and a failing
attempt at `retry_count = 3` yields no retry and a `FAILED` status update
in the log. -/
theorem C5_retry_cap :
    (∀ (task : SyncTask) (envs : Nat → RobustSyncManager.AttemptEnv),
      task.retryCount = 0 → RobustSyncManager.chainInvocations task envs 0 ≤ 4) ∧
    (∀ (task : SyncTask) (env : RobustSyncManager.AttemptEnv) (t' : SyncTask),
      (RobustSyncManager.processTask task env).retryTask = some t' →
      env.txId ≠ "" ∧ ¬ (env.syncSuccess = true ∧ env.verifyMatches = true) ∧
      task.retryCount < 3 ∧ t'.retryCount = task.retryCount + 1) ∧
    (∀ (task : SyncTask) (env : RobustSyncManager.AttemptEnv),
      task.retryCount = 3 → env.txId ≠ "" →
      ¬ (env.syncSuccess = true ∧ env.verifyMatches = true) →
      (RobustSyncManager.processTask task env).retryTask = none ∧
      RobustSyncManager.LogCall.updateStatus env.txId TransactionLog.TransactionStatus.FAILED
          (if env.syncSuccess then env.verifyErrorMessage else "Sync operation failed")
        ∈ (RobustSyncManager.processTask task env).logCalls) := by
  refine ⟨?_, ?_, ?_⟩
  · intro task envs h0
    have := RobustSyncManager.chainInvocations_le 3 task envs 0 (by omega)
    omega
  · intro task env t' h
    obtain ⟨a, b, c, d, -, -⟩ := RobustSyncManager.processTask_retry_some task env t' h
    exact ⟨a, b, c, d⟩
  · intro task env hrc htx hnv
    have hns : ¬ (env.syncSuccess ∧ env.verifyMatches) := by simpa using hnv
    constructor
    · unfold RobustSyncManager.processTask
      rw [if_neg htx, if_neg hns]
      simp [RobustSyncManager.retryOf, hrc]
    · unfold RobustSyncManager.processTask
      rw [if_neg htx, if_neg hns]
      simp

/-- Witness for C5: the fresh failing task is processed at most four
times, and a failing attempt at `retry_count = 3` produces no retry. -/
theorem C5_retry_cap_witness :
    RobustSyncManager.chainInvocations taskFresh (fun _ => envFailing) 0 ≤ 4 ∧
    (RobustSyncManager.processTask ⟨"/p", "SYNC", .NORMAL, 3, "pending", 9⟩
      envFailing).retryTask = none := by
  obtain ⟨h1, h2, h3⟩ := C5_retry_cap
  exact ⟨h1 taskFresh _ rfl,
    (h3 ⟨"/p", "SYNC", .NORMAL, 3, "pending", 9⟩ envFailing rfl (by decide) (by decide)).1⟩

namespace RobustSyncManager

theorem recoveryPass_filter :
    ∀ (now : Int) (fsEx : String → Bool) (enqOk : Bool) (nid : Nat)
      (pending : List TransactionLog.TransactionRecord),
      recoveryPass now fsEx enqOk nid pending
        = (pending.filter (fun tx => decide (300000 ≤ now - tx.timestamp))).flatMap
            (recoverTransaction fsEx enqOk nid) := by
  intro now fsEx enqOk nid pending
  induction pending with
  | nil => rfl
  | cons tx rest ih =>
    rw [recoveryPass, List.filter_cons]
    by_cases hyoung : now - tx.timestamp < 300000
    · rw [if_pos hyoung, if_neg (by simpa using (by omega : ¬ 300000 ≤ now - tx.timestamp))]
      exact ih
    · rw [if_neg hyoung, if_pos (by simpa using (by omega : 300000 ≤ now - tx.timestamp))]
      rw [List.flatMap_cons, ih]

end RobustSyncManager

/-- C6: over one `pending_transactions` snapshot, the recovery pass skips
transactions younger than five minutes; for the rest, a missing source
yields the terminal `FAILED` update with message
"Source file no longer exists" and no re-enqueue, and an existing source
yields the enqueue of a `RECOVERY`-kind `HIGH`-priority task for the
transaction's source path and no status update. -/
theorem C6_recovery_behavior :
    (∀ (now : Int) (fsEx : String → Bool) (enqOk : Bool) (nid : Nat)
        (pending : List TransactionLog.TransactionRecord),
      RobustSyncManager.recoveryPass now fsEx enqOk nid pending
        = (pending.filter (fun tx => decide (300000 ≤ now - tx.timestamp))).flatMap
            (RobustSyncManager.recoverTransaction fsEx enqOk nid)) ∧
    (∀ (fsEx : String → Bool) (enqOk : Bool) (nid : Nat)
        (tx : TransactionLog.TransactionRecord), fsEx tx.sourcePath = false →
      (RobustSyncManager.RecoveryAction.updateStatus tx.id
          TransactionLog.TransactionStatus.FAILED "Source file no longer exists")
        ∈ RobustSyncManager.recoverTransaction fsEx enqOk nid tx ∧
      ∀ t : SyncTask, RobustSyncManager.RecoveryAction.enqueueTask t
        ∉ RobustSyncManager.recoverTransaction fsEx enqOk nid tx) ∧
    (∀ (fsEx : String → Bool) (enqOk : Bool) (nid : Nat)
        (tx : TransactionLog.TransactionRecord), fsEx tx.sourcePath = true →
      (RobustSyncManager.RecoveryAction.enqueueTask
          ⟨tx.sourcePath, "RECOVERY", SyncPriority.HIGH, 0, "pending", nid⟩)
        ∈ RobustSyncManager.recoverTransaction fsEx enqOk nid tx ∧
      ∀ (id : String) (st : TransactionLog.TransactionStatus) (err : String),
        RobustSyncManager.RecoveryAction.updateStatus id st err
          ∉ RobustSyncManager.recoverTransaction fsEx enqOk nid tx) := by
  refine ⟨RobustSyncManager.recoveryPass_filter, ?_, ?_⟩
  · intro fsEx enqOk nid tx hmiss
    unfold RobustSyncManager.recoverTransaction
    rw [hmiss]
    constructor
    · simp
    · intro t
      simp
  · intro fsEx enqOk nid tx hex
    unfold RobustSyncManager.recoverTransaction
    rw [hex]
    constructor
    · simp
    · intro id st err
      by_cases he : enqOk <;> simp [he]

/-- Witness for C6 at concrete transactions: a missing source marks the
stale transaction failed, an existing source enqueues the recovery task. -/
theorem C6_recovery_behavior_witness :
    (RobustSyncManager.RecoveryAction.updateStatus txStale.id
        TransactionLog.TransactionStatus.FAILED "Source file no longer exists")
      ∈ RobustSyncManager.recoverTransaction (fun _ => false) true 11 txStale ∧
    (RobustSyncManager.RecoveryAction.enqueueTask
        ⟨txStale.sourcePath, "RECOVERY", SyncPriority.HIGH, 0, "pending", 12⟩)
      ∈ RobustSyncManager.recoverTransaction (fun _ => true) true 12 txStale := by
  obtain ⟨-, h2, h3⟩ := C6_recovery_behavior
  exact ⟨(h2 (fun _ => false) true 11 txStale rfl).1, (h3 (fun _ => true) true 12 txStale rfl).1⟩

namespace FileVerification

theorem pathExists_of_file {fs : FileSystem} {p : String} {f : FileData}
    (h : fs.file? p = some f) : fs.pathExists p = true := by
  unfold FileSystem.pathExists
  rw [h]
  rfl

theorem verifyFile_files (md5 sha : List Nat → String) (fs : FileSystem)
    (s d : String) (f g : FileData) (method : VerifyMethod)
    (hf : fs.file? s = some f) (hg : fs.file? d = some g) :
    verifyFile md5 sha fs s d method
      = if f.content.length ≠ g.content.length then
          some ⟨false, "", "", "File sizes don't match"⟩
        else
          match method with
          | .SIZE_ONLY => some ⟨true, "", "", ""⟩
          | .TIMESTAMP =>
            if (f.mtime - g.mtime).natAbs ≤ 1000 then some ⟨true, "", "", ""⟩
            else some ⟨false, "", "", "Timestamps don't match within threshold"⟩
          | .FAST_HASH =>
            if md5 f.content = md5 g.content then
              some ⟨true, md5 f.content, md5 g.content, ""⟩
            else some ⟨false, md5 f.content, md5 g.content, "MD5 checksums don't match"⟩
          | .SECURE_HASH =>
            if sha f.content = sha g.content then
              some ⟨true, sha f.content, sha g.content, ""⟩
            else some ⟨false, sha f.content, sha g.content, "SHA-256 checksums don't match"⟩
          | .FULL_COMPARE =>
            if f.content = g.content then some ⟨true, "", "", ""⟩
            else some ⟨false, "", "", "File contents don't match"⟩ := by
  unfold verifyFile
  rw [if_neg (by simp [pathExists_of_file hf]), if_neg (by simp [pathExists_of_file hg]),
    hf, hg]

end FileVerification

/-- C8: for two existing regular files, `verifyFile` reports a
non-matching result whenever the sizes differ, for every method; and under
`SIZE_ONLY` the result matches exactly when the sizes are equal. -/
theorem C8_size_gate (md5 sha : List Nat → String) (fs : FileVerification.FileSystem)
    (s d : String) (f g : FileVerification.FileData)
    (hf : fs.file? s = some f) (hg : fs.file? d = some g) :
    (f.content.length ≠ g.content.length →
      ∀ method : FileVerification.VerifyMethod,
        FileVerification.verifyFile md5 sha fs s d method
          = some ⟨false, "", "", "File sizes don't match"⟩) ∧
    (∀ res : FileVerification.VerifyResult,
      FileVerification.verifyFile md5 sha fs s d FileVerification.VerifyMethod.SIZE_ONLY
          = some res →
      (res.«matches» = true ↔ f.content.length = g.content.length)) := by
  constructor
  · intro hsz method
    rw [FileVerification.verifyFile_files md5 sha fs s d f g method hf hg, if_pos hsz]
  · intro res hres
    rw [FileVerification.verifyFile_files md5 sha fs s d f g _ hf hg] at hres
    by_cases hsz : f.content.length = g.content.length
    · rw [if_neg (by omega)] at hres
      have : res = ⟨true, "", "", ""⟩ := (Option.some.inj hres).symm
      rw [this]
      simp [hsz]
    · rw [if_pos hsz] at hres
      have : res = ⟨false, "", "", "File sizes don't match"⟩ := (Option.some.inj hres).symm
      rw [this]
      simp [hsz]

/-- Witness for C8 on a two-byte source and one-byte destination: every
method reports a mismatch, and the `SIZE_ONLY` verdict matches iff the
sizes are equal. -/
theorem C8_size_gate_witness :
    FileVerification.verifyFile md5Model shaModel c8FS "/s" "/d"
        FileVerification.VerifyMethod.FAST_HASH
      = some ⟨false, "", "", "File sizes don't match"⟩ ∧
    ((⟨false, "", "", "File sizes don't match"⟩ : FileVerification.VerifyResult).«matches» = true
      ↔ ([1, 2] : List Nat).length = ([1] : List Nat).length) := by
  have h := C8_size_gate md5Model shaModel c8FS "/s" "/d" ⟨[1, 2], 0⟩ ⟨[1], 0⟩
    (by decide) (by decide)
  exact ⟨h.1 (by decide) _, h.2 ⟨false, "", "", "File sizes don't match"⟩
    (h.1 (by decide) FileVerification.VerifyMethod.SIZE_ONLY)⟩

/-- Counterexample to C7: the hash cache holds a valid entry for the
source file — `isCacheValid` returns the cached hash, the size is
unchanged and the file was not modified after caching — yet `verifyFile`
(which never consults the cache) recomputes and returns a hash different
from the cached one. -/
theorem C7_cache_counterexample :
    FileVerification.isCacheValid c7Cache c7FS "/src/f" = some "cachedhash" ∧
    FileVerification.verifyFile md5Model shaModel c7FS "/src/f" "/dst/f"
        FileVerification.VerifyMethod.FAST_HASH
      = some ⟨true, "md5-104-105", "md5-104-105", ""⟩ ∧
    md5Model [104, 105] = "md5-104-105" ∧
    "md5-104-105" ≠ "cachedhash" := by
  refine ⟨by decide, by decide, by decide, by decide⟩

/-- C7 (amended): `verifyFile` never consults the hash cache — the cache
is not among its inputs, and under `FAST_HASH` it always returns digests
recomputed from the files' current contents, even when a valid cache entry
exists; `isCacheValid` itself (dead code on the verify path) deems an
entry valid exactly when one exists for the path, the current size equals
the cached size, and the file's mtime is not later than the entry's
creation time. -/
theorem C7_cache_amended :
    (∀ (md5 sha : List Nat → String) (fs : FileVerification.FileSystem)
        (s d : String) (f g : FileVerification.FileData),
      fs.file? s = some f → fs.file? d = some g →
      f.content.length = g.content.length →
      ∃ res : FileVerification.VerifyResult,
        FileVerification.verifyFile md5 sha fs s d FileVerification.VerifyMethod.FAST_HASH
            = some res ∧
        res.sourceHash = md5 f.content ∧ res.destHash = md5 g.content) ∧
    (∀ (cache : List (String × FileVerification.CacheEntry))
        (fs : FileVerification.FileSystem) (p h : String),
      FileVerification.isCacheValid cache fs p = some h →
      ∃ (e : FileVerification.CacheEntry) (f : FileVerification.FileData),
        cache.find? (fun q => q.1 = p) = some (p, e) ∧ e.hash = h ∧
        fs.file? p = some f ∧ f.content.length = e.fileSize ∧ f.mtime ≤ e.timestamp) := by
  constructor
  · intro md5 sha fs s d f g hf hg hsz
    rw [FileVerification.verifyFile_files md5 sha fs s d f g _ hf hg, if_neg (by omega)]
    by_cases hh : md5 f.content = md5 g.content
    · rw [if_pos hh]
      exact ⟨_, rfl, rfl, rfl⟩
    · rw [if_neg hh]
      exact ⟨_, rfl, rfl, rfl⟩
  · intro cache fs p h hv
    unfold FileVerification.isCacheValid at hv
    cases hfind : cache.find? (fun q => q.1 = p) with
    | none =>
      rw [hfind] at hv
      simp at hv
    | some pr =>
      rw [hfind] at hv
      simp only [Option.map_some'] at hv
      cases hfile : fs.file? p with
      | none =>
        rw [hfile] at hv
        simp at hv
      | some f =>
        rw [hfile] at hv
        dsimp only at hv
        by_cases hc : f.content.length ≠ pr.2.fileSize ∨ pr.2.timestamp < f.mtime
        · rw [if_pos hc] at hv
          exact absurd hv (by simp)
        · rw [if_neg hc] at hv
          have hkey : pr.1 = p := by
            have := List.find?_some hfind
            simpa using this
          refine ⟨pr.2, f, ?_, Option.some.inj hv, rfl, ?_, ?_⟩
          · rw [← hkey]
          · omega
          · omega

/-- Witness for the amended C7 at the concrete cache scenario: the
returned hashes are the recomputed digests of the current contents. -/
theorem C7_cache_amended_witness :
    (∃ res : FileVerification.VerifyResult,
      FileVerification.verifyFile md5Model shaModel c7FS "/src/f" "/dst/f"
          FileVerification.VerifyMethod.FAST_HASH = some res ∧
      res.sourceHash = md5Model [104, 105] ∧ res.destHash = md5Model [104, 105]) ∧
    (∃ (e : FileVerification.CacheEntry) (f : FileVerification.FileData),
      c7Cache.find? (fun q => q.1 = "/src/f") = some ("/src/f", e) ∧ e.hash = "cachedhash" ∧
      c7FS.file? "/src/f" = some f ∧ f.content.length = e.fileSize ∧ f.mtime ≤ e.timestamp) := by
  obtain ⟨h1, h2⟩ := C7_cache_amended
  exact ⟨h1 md5Model shaModel c7FS "/src/f" "/dst/f" c7Data c7Data (by decide) (by decide) rfl,
    h2 c7Cache c7FS "/src/f" "cachedhash" (by decide)⟩

namespace FileVerification

theorem mapMOption_mem {α β : Type} (f : α → Option β) :
    ∀ (l : List α) (out : List β), mapMOption f l = some out →
      ∀ b ∈ out, ∃ a ∈ l, f a = some b := by
  intro l
  induction l with
  | nil =>
    intro out h b hb
    have hout : ([] : List β) = out := Option.some.inj h
    rw [← hout] at hb
    simp at hb
  | cons a as ih =>
    intro out h b hb
    unfold mapMOption at h
    cases hfa : f a with
    | none =>
      rw [hfa] at h
      dsimp only at h
      exact Option.noConfusion h
    | some b0 =>
      cases hrest : mapMOption f as with
      | none =>
        rw [hfa, hrest] at h
        dsimp only at h
        exact Option.noConfusion h
      | some bs =>
        rw [hfa, hrest] at h
        dsimp only at h
        have hout : b0 :: bs = out := Option.some.inj h
        rw [← hout] at hb
        rcases List.mem_cons.mp hb with hb0 | hbs
        · exact ⟨a, List.mem_cons_self a as, by rw [hfa, hb0]⟩
        · obtain ⟨a', ha', hfa'⟩ := ih bs hrest b hbs
          exact ⟨a', List.mem_cons_of_mem a ha', hfa'⟩

end FileVerification

/-- Counterexample to C9: the walked root is `/src` and the only source
file is `/src/a.txt`, whose relative path is `a.txt`; yet the pair
returned by `verifyDirectory` carries first component `src/a.txt` — the
full source path with only the filesystem root `/` stripped — not the
path relative to the walked root. -/
theorem C9_relpath_counterexample :
    (FileVerification.verifyDirectory md5Model shaModel c9FS "/src" "/dst"
        FileVerification.VerifyMethod.SIZE_ONLY).map (fun l => l.map Prod.fst)
      = some ["src/a.txt"] ∧
    FileVerification.relUnder "/src" "/src/a.txt" = "a.txt" ∧
    "src/a.txt" ≠ "a.txt" := by
  refine ⟨by decide, by decide, by decide⟩

/-- C9 (amended): when both directories exist, the result is the
missing-file entries, then the extra-file entries, then the per-pair
results; missing entries are labelled with the walk-relative path and
"File missing in destination", extra entries with the walk-relative path
and "Extra file in destination", but each verified pair is labelled with
the source path stripped of its root `/` (NOT relative to the walked
root), paired against `destDir / relative`. -/
theorem C9_relpath_amended :
    (∀ (md5 sha : List Nat → String) (fs : FileVerification.FileSystem)
        (sdir ddir : String) (method : FileVerification.VerifyMethod)
        (pe : List (String × FileVerification.VerifyResult)),
      fs.pathExists sdir = true → fs.isDirectory sdir = true →
      fs.pathExists ddir = true → fs.isDirectory ddir = true →
      FileVerification.pairEntries md5 sha fs sdir ddir method = some pe →
      FileVerification.verifyDirectory md5 sha fs sdir ddir method
        = some (FileVerification.missingEntries fs sdir ddir
            ++ FileVerification.extraEntries fs sdir ddir ++ pe)) ∧
    (∀ (fs : FileVerification.FileSystem) (sdir ddir : String)
        (e : String × FileVerification.VerifyResult),
      e ∈ FileVerification.missingEntries fs sdir ddir →
      ∃ p ∈ FileVerification.walkFiles fs sdir,
        e = (FileVerification.relUnder sdir p,
          ⟨false, "", "", "File missing in destination"⟩)) ∧
    (∀ (fs : FileVerification.FileSystem) (sdir ddir : String)
        (e : String × FileVerification.VerifyResult),
      e ∈ FileVerification.extraEntries fs sdir ddir →
      ∃ p ∈ FileVerification.walkFiles fs ddir,
        e = (FileVerification.relUnder ddir p,
          ⟨false, "", "", "Extra file in destination"⟩)) ∧
    (∀ (md5 sha : List Nat → String) (fs : FileVerification.FileSystem)
        (sdir ddir : String) (method : FileVerification.VerifyMethod)
        (pe : List (String × FileVerification.VerifyResult)),
      FileVerification.pairEntries md5 sha fs sdir ddir method = some pe →
      ∀ e ∈ pe, ∃ p ∈ FileVerification.walkFiles fs sdir,
        e.1 = FileVerification.pairLabel p ∧
        FileVerification.verifyFile md5 sha fs p
            (FileVerification.destOfSrc ddir sdir p) method = some e.2) := by
  refine ⟨?_, ?_, ?_, ?_⟩
  · intro md5 sha fs sdir ddir method pe hse hsd hde hdd hpe
    unfold FileVerification.verifyDirectory
    rw [if_neg (by simp [hse, hsd]), if_neg (by simp [hde, hdd]), hpe]
  · intro fs sdir ddir e he
    unfold FileVerification.missingEntries at he
    obtain ⟨p, hp, hpe⟩ := List.mem_map.mp he
    exact ⟨p, (List.mem_filter.mp hp).1, hpe.symm⟩
  · intro fs sdir ddir e he
    unfold FileVerification.extraEntries at he
    obtain ⟨p, hp, hpe⟩ := List.mem_map.mp he
    exact ⟨p, (List.mem_filter.mp hp).1, hpe.symm⟩
  · intro md5 sha fs sdir ddir method pe hpe e he
    obtain ⟨pr, hpr, hf⟩ := FileVerification.mapMOption_mem _ _ pe hpe e he
    unfold FileVerification.filePairsOf at hpr
    obtain ⟨p, hpfil, hppr⟩ := List.mem_map.mp hpr
    obtain ⟨res, hres, hmap⟩ := Option.map_eq_some'.mp hf
    refine ⟨p, (List.mem_filter.mp hpfil).1, ?_, ?_⟩
    · rw [← hmap, ← hppr]
    · rw [← hmap]
      dsimp only
      rw [← hppr] at hres
      exact hres

/-- Witness for the amended C9 at the concrete one-file scenario. -/
theorem C9_relpath_amended_witness :
    FileVerification.verifyDirectory md5Model shaModel c9FS "/src" "/dst"
        FileVerification.VerifyMethod.SIZE_ONLY
      = some (FileVerification.missingEntries c9FS "/src" "/dst"
          ++ FileVerification.extraEntries c9FS "/src" "/dst"
          ++ [("src/a.txt", ⟨true, "", "", ""⟩)]) ∧
    ("src/a.txt", (⟨true, "", "", ""⟩ : FileVerification.VerifyResult)).1
      = FileVerification.pairLabel "/src/a.txt" := by
  obtain ⟨h1, -, -, h4⟩ := C9_relpath_amended
  refine ⟨h1 md5Model shaModel c9FS "/src" "/dst" FileVerification.VerifyMethod.SIZE_ONLY
      [("src/a.txt", ⟨true, "", "", ""⟩)] (by decide) (by decide) (by decide) (by decide)
      (by decide), ?_⟩
  obtain ⟨p, hp, hlab, -⟩ := h4 md5Model shaModel c9FS "/src" "/dst"
    FileVerification.VerifyMethod.SIZE_ONLY [("src/a.txt", ⟨true, "", "", ""⟩)] (by decide)
    ("src/a.txt", ⟨true, "", "", ""⟩) (by simp)
  have hpval : p = "/src/a.txt" := by
    have : FileVerification.walkFiles c9FS "/src" = ["/src/a.txt"] := by decide
    rw [this] at hp
    simpa using hp
  rw [hlab, hpval]

/-- C10: when the engine is not running, `syncFile` and `batchSync` return
`false` immediately and leave the whole state — queue, transaction log and
metrics — unchanged. -/
theorem C10_not_running (s : RobustSyncManager.MState) (h : s.running = false) :
    (∀ (p : String) (pr : SyncPriority) (nid : Nat),
      RobustSyncManager.syncFile s p pr nid = (false, s)) ∧
    (∀ (ps : List String) (pr : SyncPriority) (fid : Nat),
      RobustSyncManager.batchSync s ps pr fid = (false, s)) := by
  constructor
  · intro p pr nid
    unfold RobustSyncManager.syncFile
    rw [if_pos (by simp [h])]
  · intro ps pr fid
    unfold RobustSyncManager.batchSync
    rw [if_pos (by simp [h])]

/-- Witness for C10 at a concrete stopped manager. -/
theorem C10_not_running_witness :
    RobustSyncManager.syncFile mStopped "/path/to/source/a" SyncPriority.NORMAL 21
      = (false, mStopped) ∧
    RobustSyncManager.batchSync mStopped ["/path/to/source/a", "/path/to/source/b"]
      SyncPriority.HIGH 22 = (false, mStopped) := by
  have h := C10_not_running mStopped rfl
  exact ⟨h.1 "/path/to/source/a" SyncPriority.NORMAL 21,
    h.2 ["/path/to/source/a", "/path/to/source/b"] SyncPriority.HIGH 22⟩
